import Mathlib

/-!
Shallow embedding of the BPMN-to-SOP generator
(`backend/bpmn_parser.py` and the SLA merge scan of `backend/app.py`).

The embedding starts from the entity tables built by `BPMNParser._parse_structure`
(the XML parsing itself is done by the external `lxml` library): tasks, gateways,
sequence flows, subprocesses, events, boundary events, groups and shape bounds,
modelled as ordered association lists mirroring Python's insertion-ordered dicts.
Step numbers are modelled as `Nat` (the source stores the digit strings matched by
`^\s*(\d+)` and always compares them through `int(...)`).  Python's stable `sorted`
is modelled by `List.insertionSort`, which is also a stable sort and therefore
extensionally equal to it.  Recursive graph traversals that the source guards with
a shared mutated `visited` set are modelled as fuelled recursions that thread the
visited set explicitly; `sufficient_fuel` provides enough fuel that the result no
longer depends on it (proved below).  Spatial coordinates are modelled as `Rat`.
-/

namespace SOP

/-- Paragraph record: `{'text': ..., 'font_size': ..., 'bold': ..., 'alignment': ...}`. -/
structure Paragraph where
  text : String
  font_size : Nat
  bold : Bool
  alignment : String
deriving DecidableEq, Repr

/-- RACI tuple parsed from a lane's tagged documentation elements. -/
structure Raci where
  responsible : String
  accountable : String
  consulted : String
  informed : String
deriving DecidableEq, Repr

/-- The all-"N/A" RACI default used whenever a lane or its data is missing. -/
def defaultRaci : Raci :=
  { responsible := "N/A", accountable := "N/A", consulted := "N/A", informed := "N/A" }

/-- A generated SOP row (`sop_rows` entry of `generate_sop_rows`). -/
structure Row where
  ref : String
  is_gateway : Bool
  sla : Option String := none
  sla_group : Option String := none
  raci : Raci := defaultRaci
  paragraphs : List Paragraph := []
deriving DecidableEq, Repr

/-- Task entry of `self.tasks` (post-parse: step number extracted, label cleaned). -/
structure Task where
  label : String := ""
  lane : String := "[LANE UNREADABLE]"
  lane_id : Option String := none
  number : Option Nat := none
  incoming : List String := []
  outgoing : List String := []
  documentation : Option String := none
  sla : Option String := none
deriving DecidableEq, Repr

/-- Gateway type: parallel → AND, inclusive → OR, exclusive → XOR. -/
inductive GType where
  | XOR
  | AND
  | OR
deriving DecidableEq, Repr

/-- Gateway entry of `self.gateways`. -/
structure Gateway where
  type : GType
  incoming : List String := []
  outgoing : List String := []
deriving DecidableEq, Repr

/-- Sequence-flow entry of `self.flows`. -/
structure Flow where
  source : String
  target : String
  name : String := ""
  documentation : Option String := none
deriving DecidableEq, Repr

/-- Event type of `self.events` entries. -/
inductive EType where
  | start
  | endE
  | inter
deriving DecidableEq, Repr

/-- Event entry of `self.events`. -/
structure Event where
  name : String := ""
  type : EType
  incoming : List String := []
  outgoing : List String := []
deriving DecidableEq, Repr

/-- Subprocess entry of `self.subprocesses`. -/
structure Subprocess where
  name : String := "Unnamed Process"
  incoming : List String := []
  outgoing : List String := []
deriving DecidableEq, Repr

/-- Boundary event attached to a task (`self.boundary_events[attached_to]` entry). -/
structure BoundaryEv where
  name : String := ""
  interrupting : Bool := true
  event_type : Option String := none
  outgoing : List String := []
deriving DecidableEq, Repr

/-- BPMNShape bounds used for the spatial group-membership query. -/
structure Bounds where
  x : Rat := 0
  y : Rat := 0
  width : Rat := 0
  height : Rat := 0
deriving DecidableEq, Repr

/-- The entity tables built by `BPMNParser._parse_structure`, as ordered
association lists (Python dicts preserve insertion order). -/
structure BPMNModel where
  tasks : List (String × Task) := []
  gateways : List (String × Gateway) := []
  flows : List (String × Flow) := []
  subprocesses : List (String × Subprocess) := []
  events : List (String × Event) := []
  boundary_events : List (String × List BoundaryEv) := []
  groups : List (String × String) := []
  shape_bounds : List (String × Bounds) := []
  lane_raci : List (String × Raci) := []
deriving DecidableEq, Repr

/-- Dict read: first binding of the key (each key occurs once in a parsed model). -/
def dget (d : List (String × α)) (k : String) : Option α :=
  List.lookup k d

/-- Python truthiness of an optional string (`None` and `''` are falsy). -/
def truthyS : Option String → Bool
  | none => false
  | some s => !s.isEmpty

/-- Set insertion for the `visited` sets and step-number sets (`set.add`). -/
def sinsert [BEq α] (l : List α) (x : α) : List α :=
  if l.contains x then l else x :: l

/-- `sorted(set(xs), key=int)` on step numbers: deduplicate, then sort ascending. -/
def dedup_sorted (l : List Nat) : List Nat :=
  (l.foldl (fun acc n => sinsert acc n) []).insertionSort (· ≤ ·)

/-- Python `str.rstrip()`: drop trailing whitespace. -/
def rstrip (s : String) : String :=
  String.mk ((s.data.reverse.dropWhile Char.isWhitespace).reverse)

/-- `ensure_period` helper of `generate_sop_rows`: right-strip, then append a
period unless the text is empty or already ends with `.`, `!` or `?`. -/
def ensure_period (text : String) : String :=
  let t := rstrip text
  if !t.isEmpty && !(t.endsWith "." || t.endsWith "!" || t.endsWith "?") then t ++ "." else t

/-- Paragraph literal with the `JUSTIFY` alignment used by all generated rows. -/
def para (text : String) (size : Nat) (bold : Bool) : Paragraph :=
  { text := text, font_size := size, bold := bold, alignment := "JUSTIFY" }

/-- The empty spacer paragraph `{'text': '', 'font_size': 11, 'bold': False, ...}`. -/
def emptyPara : Paragraph := para "" 11 false

/-- `_get_task_sla`: task-level SLA (truthy) takes priority with no group id;
otherwise the first group (in table order) whose bounds contain the task
shape's centre supplies `(sla, group_id)`. -/
def get_task_sla (m : BPMNModel) (task_id : String) : Option String × Option String :=
  match dget m.tasks task_id with
  | none => (none, none)
  | some task =>
    if truthyS task.sla then (task.sla, none)
    else
      match dget m.shape_bounds task_id with
      | none => (none, none)
      | some tb =>
        let cx := tb.x + tb.width / 2
        let cy := tb.y + tb.height / 2
        match m.groups.findSome? (fun g =>
          match dget m.shape_bounds g.1 with
          | none => none
          | some gb =>
            if gb.x ≤ cx ∧ cx ≤ gb.x + gb.width ∧ gb.y ≤ cy ∧ cy ≤ gb.y + gb.height then
              some (g.2, g.1)
            else none) with
        | some p => (some p.1, some p.2)
        | none => (none, none)

/-- Resolved outgoing target of `_get_target_step_numbers`:
`('task', step, flow_name)`, `('gateway', id, flow_name)`, `('subprocess', id,
flow_name)`, `('end', name, flow_name)` or `('intermediate', id, flow_name)`. -/
inductive Target where
  | task (step : Nat) (flow_name : String)
  | gateway (id : String) (flow_name : String)
  | subprocess (id : String) (flow_name : String)
  | endEvent (name : String) (flow_name : String)
  | intermediate (id : String) (flow_name : String)
deriving DecidableEq, Repr

/-- Loop body of `_get_target_step_numbers`: resolve one outgoing flow.  Flows
missing from the table, flows to unnumbered tasks, flows to start events and
flows to unknown ids contribute nothing. -/
def resolve_target (m : BPMNModel) (fid : String) : List Target :=
  match dget m.flows fid with
  | none => []
  | some fl =>
    match dget m.tasks fl.target with
    | some t =>
      match t.number with
      | some n => [Target.task n fl.name]
      | none => []
    | none =>
      match dget m.gateways fl.target with
      | some _ => [Target.gateway fl.target fl.name]
      | none =>
        match dget m.subprocesses fl.target with
        | some _ => [Target.subprocess fl.target fl.name]
        | none =>
          match dget m.events fl.target with
          | some e =>
            if e.type = EType.endE then
              [Target.endEvent (if e.name.isEmpty then "Process Complete" else e.name) fl.name]
            else if e.type = EType.inter then
              [Target.intermediate fl.target fl.name]
            else []
          | none => []

/-- `_get_target_step_numbers`: resolve every outgoing flow of the element. -/
def get_target_step_numbers (m : BPMNModel) (element_id : String) : List Target :=
  let flow_ids :=
    match dget m.tasks element_id with
    | some t => t.outgoing
    | none =>
      match dget m.gateways element_id with
      | some g => g.outgoing
      | none =>
        match dget m.subprocesses element_id with
        | some s => s.outgoing
        | none =>
          match dget m.events element_id with
          | some e => e.outgoing
          | none => []
  flow_ids.flatMap (resolve_target m)

/-- Fuel that provably suffices for every visited-set-guarded traversal: one more
than the total number of node ids in the entity tables. -/
def sufficient_fuel (m : BPMNModel) : Nat :=
  m.tasks.length + m.gateways.length + m.events.length + m.subprocesses.length + 1

/-- Loop body of `_find_first_task_from_element` over the outgoing flow list;
`recurse` is the recursive call (at one less fuel).  The shared mutated
`visited` set of the source is threaded through and returned. -/
def find_first_go (m : BPMNModel)
    (recurse : String → List String → Option Nat × List String) :
    List String → List String → Option Nat × List String
  | [], visited => (none, visited)
  | fid :: rest, visited =>
    match dget m.flows fid with
    | none => find_first_go m recurse rest visited
    | some fl =>
      match (dget m.tasks fl.target).bind (fun t => t.number) with
      | some n => (some n, visited)
      | none =>
        if (dget m.gateways fl.target).isSome || (dget m.events fl.target).isSome then
          match recurse fl.target visited with
          | (some r, visited2) => (some r, visited2)
          | (none, visited2) => find_first_go m recurse rest visited2
        else find_first_go m recurse rest visited

/-- `_find_first_task_from_element`: forward DFS through gateways and events
only, returning the first numbered task's step number. -/
def find_first_task_from_element (m : BPMNModel) :
    Nat → String → List String → Option Nat × List String
  | 0, _, visited => (none, visited)
  | fuel + 1, element_id, visited =>
    if visited.contains element_id then (none, visited)
    else
      let visited' := element_id :: visited
      let outgoing_flows :=
        match dget m.events element_id with
        | some e => e.outgoing
        | none =>
          match dget m.gateways element_id with
          | some g => g.outgoing
          | none => []
      find_first_go m (find_first_task_from_element m fuel) outgoing_flows visited'

/-- Loop body of `_trace_gateway_to_task` over the incoming flow list;
`recurse` is the recursive call (at one less fuel). -/
def trace_gateway_go (m : BPMNModel)
    (recurse : String → List String → Option Nat × List String) :
    List String → List String → Option Nat × List String
  | [], visited => (none, visited)
  | fid :: rest, visited =>
    match dget m.flows fid with
    | none => trace_gateway_go m recurse rest visited
    | some fl =>
      match (dget m.tasks fl.source).bind (fun t => t.number) with
      | some n => (some n, visited)
      | none =>
        if (dget m.gateways fl.source).isSome then
          match recurse fl.source visited with
          | (some r, visited2) => (some r, visited2)
          | (none, visited2) => trace_gateway_go m recurse rest visited2
        else trace_gateway_go m recurse rest visited

/-- `_trace_gateway_to_task`: backward DFS through gateways, returning the step
number of the first numbered task found feeding them. -/
def trace_gateway_to_task (m : BPMNModel) :
    Nat → String → List String → Option Nat × List String
  | 0, _, visited => (none, visited)
  | fuel + 1, gateway_id, visited =>
    if visited.contains gateway_id then (none, visited)
    else
      let visited' := gateway_id :: visited
      match dget m.gateways gateway_id with
      | none => (none, visited')
      | some gw => trace_gateway_go m (trace_gateway_to_task m fuel) gw.incoming visited'

/-- Single-step continuation of `_trace_back_to_split_gateway`: stop at a dead
end (no incoming flow) or a join (more than one incoming flow), else follow the
unique incoming flow to its source via `recurse`. -/
def trace_back_step (m : BPMNModel) (recurse : String → List String → Option (String × GType))
    (incoming_flows : List String) (visited : List String) : Option (String × GType) :=
  match incoming_flows with
  | [flow_id] =>
    match dget m.flows flow_id with
    | none => none
    | some fl => recurse fl.source visited
  | _ => none

/-- `_trace_back_to_split_gateway`: walk backward while the current node is a
task or a non-split gateway with exactly one incoming flow; a gateway with one
incoming and more than one outgoing flow is the originating split. -/
def trace_back_to_split_gateway (m : BPMNModel) :
    Nat → String → List String → Option (String × GType)
  | 0, _, _ => none
  | fuel + 1, element_id, visited =>
    if visited.contains element_id then none
    else
      let visited' := element_id :: visited
      match dget m.gateways element_id with
      | some gw =>
        if gw.incoming.length = 1 ∧ gw.outgoing.length > 1 then some (element_id, gw.type)
        else trace_back_step m (trace_back_to_split_gateway m fuel) gw.incoming visited'
      | none =>
        match dget m.tasks element_id with
        | some t => trace_back_step m (trace_back_to_split_gateway m fuel) t.incoming visited'
        | none => none

/-- `_get_start_event_numbers`: start events numbered `1, 2, ...` after a stable
sort by the step number of the first task each one reaches (`9999` if none). -/
def get_start_event_numbers (m : BPMNModel) : List (String × Nat) :=
  let start_events_with_step :=
    (m.events.filter (fun e => e.2.type = EType.start)).map (fun e =>
      (e.1, match (find_first_task_from_element m (sufficient_fuel m) e.1 []).1 with
            | some n => n
            | none => 9999))
  let sortedEv := start_events_with_step.insertionSort (fun a b => a.2 ≤ b.2)
  sortedEv.enum.map (fun p => (p.2.1, p.1 + 1))

/-- Loop body of `trace_source` over an incoming flow list; `recurse` is the
recursive call (at one less fuel). -/
def trace_source_go (m : BPMNModel)
    (recurse : String → List String × List Nat × List Nat → List String × List Nat × List Nat) :
    List String → List String × List Nat × List Nat → List String × List Nat × List Nat
  | [], st => st
  | fid :: rest, st =>
    match dget m.flows fid with
    | none => trace_source_go m recurse rest st
    | some fl => trace_source_go m recurse rest (recurse fl.source st)

/-- `trace_source` (inner function of `_detect_step_trigger_input`): backward
trace collecting numbered-task sources (only forward ones, strictly below the
current step) and start-event trigger numbers; continues through non-start
events, gateways and subprocesses.  State is `(visited, step_sources,
trigger_sources)`. -/
def trace_source (m : BPMNModel) (sens : List (String × Nat)) (current : Nat) :
    Nat → String → List String × List Nat × List Nat → List String × List Nat × List Nat
  | 0, _, st => st
  | fuel + 1, element_id, (visited, steps, trigs) =>
    if visited.contains element_id then (visited, steps, trigs)
    else
      let visited' := element_id :: visited
      match dget m.tasks element_id with
      | some t =>
        match t.number with
        | some n =>
          if n < current then (visited', sinsert steps n, trigs) else (visited', steps, trigs)
        | none => (visited', steps, trigs)
      | none =>
        match dget m.events element_id with
        | some e =>
          if e.type = EType.start then
            match List.lookup element_id sens with
            | some n => (visited', steps, sinsert trigs n)
            | none => (visited', steps, trigs)
          else
            trace_source_go m (trace_source m sens current fuel) e.incoming
              (visited', steps, trigs)
        | none =>
          match dget m.gateways element_id with
          | some g =>
            trace_source_go m (trace_source m sens current fuel) g.incoming
              (visited', steps, trigs)
          | none =>
            match dget m.subprocesses element_id with
            | some sp =>
              trace_source_go m (trace_source m sens current fuel) sp.incoming
                (visited', steps, trigs)
            | none => (visited', steps, trigs)

/-- Key column of an entity table. -/
def keys_of {α : Type} (d : List (String × α)) : List String :=
  d.map Prod.fst

/-- Number of keys of `keys` not yet in the visited set `v`: the termination
measure induced by the visited-set mechanism. -/
def unvisited (keys v : List String) : Nat :=
  (keys.filter (fun k => !v.contains k)).length

/-- Ids through which `_find_first_task_from_element` can recurse. -/
def ff_keys (m : BPMNModel) : List String :=
  keys_of m.gateways ++ keys_of m.events

/-- Ids through which `_trace_gateway_to_task` can recurse. -/
def tg_keys (m : BPMNModel) : List String :=
  keys_of m.gateways

/-- Ids through which `_trace_back_to_split_gateway` can recurse. -/
def tb_keys (m : BPMNModel) : List String :=
  keys_of m.gateways ++ keys_of m.tasks

/-- Ids through which `trace_source` can recurse. -/
def ts_keys (m : BPMNModel) : List String :=
  keys_of m.events ++ keys_of m.gateways ++ keys_of m.subprocesses

/-- The `(step_sources, trigger_sources)` pair computed by
`_detect_step_trigger_input`: each incoming flow is traced from a fresh
`visited` set while both source sets accumulate across flows. -/
def step_trigger_sources (m : BPMNModel) (task_id : String) : List Nat × List Nat :=
  match dget m.tasks task_id with
  | none => ([], [])
  | some task =>
    match task.number with
    | none => ([], [])
    | some current =>
      let sens := get_start_event_numbers m
      task.incoming.foldl (fun acc fid =>
        match dget m.flows fid with
        | none => acc
        | some fl =>
          let r := trace_source m sens current (sufficient_fuel m) fl.source ([], acc.1, acc.2)
          (r.2.1, r.2.2)) ([], [])

/-- `_detect_step_trigger_input`: emit `"Step Input: Step A or Input B"` only
when both step sources and trigger sources were found. -/
def detect_step_trigger_input (m : BPMNModel) (task_id : String) : Option String :=
  match dget m.tasks task_id with
  | none => none
  | some task =>
    if task.incoming.isEmpty then none
    else if task.number.isNone then none
    else
      let sources := step_trigger_sources m task_id
      if !sources.1.isEmpty && !sources.2.isEmpty then
        some ("Step Input: " ++ String.intercalate " or "
          ((sources.1.insertionSort (· ≤ ·)).map (fun n => "Step " ++ toString n) ++
           (sources.2.insertionSort (· ≤ ·)).map (fun n => "Input " ++ toString n)))
      else none

/-- First classification loop of `_detect_multi_input`: incoming flows whose
direct source is a parallel (AND) or inclusive (OR) gateway, as
`(flow_id, gateway_id, gateway_type)` triples.  (The `xor_sources` list the
source also builds in this loop is never read afterwards.) -/
def multi_join_sources (m : BPMNModel) (incoming : List String) :
    List (String × String × GType) :=
  incoming.flatMap (fun fid =>
    match dget m.flows fid with
    | none => []
    | some fl =>
      match dget m.gateways fl.source with
      | some g =>
        if g.type = GType.AND ∨ g.type = GType.OR then [(fid, fl.source, g.type)] else []
      | none => [])

/-- Step numbers traced for the AND/OR-join branch of `_detect_multi_input`:
numbered tasks directly feeding each join gateway, plus tasks found by tracing
through further gateways. -/
def multi_join_steps (m : BPMNModel) (srcs : List (String × String × GType)) : List Nat :=
  srcs.flatMap (fun s =>
    match dget m.gateways s.2.1 with
    | none => []
    | some gw =>
      gw.incoming.flatMap (fun gfid =>
        match dget m.flows gfid with
        | none => []
        | some fl =>
          match (dget m.tasks fl.source).bind (fun t => t.number) with
          | some n => [n]
          | none =>
            match dget m.gateways fl.source with
            | some _ => ((trace_gateway_to_task m (sufficient_fuel m) fl.source []).1).toList
            | none => []))

/-- The `join_type` flag as updated across the AND/OR-join sources
(`True` = inclusive "and/or", `False` = parallel "and"; last gateway wins). -/
def multi_join_or (srcs : List (String × String × GType)) : Bool :=
  srcs.foldl (fun b s =>
    if s.2.2 = GType.OR then true else if s.2.2 = GType.AND then false else b) false

/-- `f"Step Input: Step {connector.join(sorted(set(steps), key=int))}"`. -/
def step_input_text (join_or : Bool) (steps : List Nat) : String :=
  let connector := if join_or then " and/or Step " else " and Step "
  "Step Input: Step " ++ String.intercalate connector ((dedup_sorted steps).map toString)

/-- Second loop of `_detect_multi_input`: per incoming flow, the originating
split gateway found by `_trace_back_to_split_gateway` (entries are `none` when
the source is neither task nor gateway, or no split was found). -/
def traced_splits (m : BPMNModel) (incoming : List String) :
    List (Option (String × GType)) :=
  incoming.flatMap (fun fid =>
    match dget m.flows fid with
    | none => []
    | some fl =>
      if (dget m.tasks fl.source).isSome || (dget m.gateways fl.source).isSome then
        [trace_back_to_split_gateway m (sufficient_fuel m) fl.source []]
      else [none])

/-- Direct XOR-gateway predecessors among the incoming flows. -/
def has_xor_direct (m : BPMNModel) (incoming : List String) : Bool :=
  incoming.any (fun fid =>
    match dget m.flows fid with
    | some fl =>
      match dget m.gateways fl.source with
      | some g => g.type = GType.XOR
      | none => false
    | none => false)

/-- `has_xor_source` of `_detect_multi_input`: a direct XOR predecessor or an
incoming flow traced back to an XOR split. -/
def has_xor_src (m : BPMNModel) (incoming : List String) : Bool :=
  has_xor_direct m incoming ||
  (traced_splits m incoming).any (fun o =>
    match o with
    | some s => s.2 = GType.XOR
    | none => false)

/-- The "all incoming flows trace back to XOR splits" test of
`_detect_multi_input` (every flow produced a traced entry, all entries found a
split, and every split is XOR). -/
def all_xor_splits (m : BPMNModel) (incoming : List String) : Bool :=
  let traced := traced_splits m incoming
  traced.length = incoming.length && 0 < traced.length &&
  traced.all (fun o => o.isSome) &&
  traced.all (fun o =>
    match o with
    | some s => s.2 = GType.XOR
    | none => true)

/-- Fallback collection loop of `_detect_multi_input`: step numbers of direct
numbered-task predecessors, plus numbered tasks directly feeding a gateway
predecessor; also folds the `join_type` flag over the gateway predecessors. -/
def fallback_scan (m : BPMNModel) (incoming : List String) : Bool × List Nat :=
  incoming.foldl (fun acc fid =>
    match dget m.flows fid with
    | none => acc
    | some fl =>
      match (dget m.tasks fl.source).bind (fun t => t.number) with
      | some n => (acc.1, acc.2 ++ [n])
      | none =>
        match dget m.gateways fl.source with
        | some gw =>
          let jor := if gw.type = GType.OR then true
                     else if gw.type = GType.AND then false else acc.1
          (jor, acc.2 ++ gw.incoming.flatMap (fun gfid =>
            match dget m.flows gfid with
            | none => []
            | some gfl =>
              match (dget m.tasks gfl.source).bind (fun t => t.number) with
              | some gn => [gn]
              | none => []))
        | none => acc) (false, [])

/-- `_detect_multi_input`: AND/OR-join branch first; any XOR involvement or an
all-XOR-splits ancestry falls back to step+trigger detection; otherwise the
fallback scan fires when it collects more than one step number. -/
def detect_multi_input (m : BPMNModel) (task_id : String) : Option String :=
  match dget m.tasks task_id with
  | none => none
  | some task =>
    let incoming := task.incoming
    if incoming.isEmpty then none
    else
      let srcs := multi_join_sources m incoming
      if !srcs.isEmpty then
        let source_steps := multi_join_steps m srcs
        if source_steps.length > 1 then some (step_input_text (multi_join_or srcs) source_steps)
        else detect_step_trigger_input m task_id
      else if has_xor_src m incoming then detect_step_trigger_input m task_id
      else if all_xor_splits m incoming then detect_step_trigger_input m task_id
      else
        let fb := fallback_scan m incoming
        if fb.2.length > 1 then some (step_input_text fb.1 fb.2)
        else detect_step_trigger_input m task_id

/-- Condition under which the AND/OR-join branch of `_detect_multi_input` emits
its text: the task exists with incoming flows, some direct predecessor is an
AND/OR gateway, and more than one step number (with multiplicity) is traced
from those gateways. -/
def multi_input_join_fires (m : BPMNModel) (task_id : String) : Bool :=
  match dget m.tasks task_id with
  | none => false
  | some task =>
    !task.incoming.isEmpty &&
    !(multi_join_sources m task.incoming).isEmpty &&
    decide (1 < (multi_join_steps m (multi_join_sources m task.incoming)).length)

/-- Condition under which `_detect_step_trigger_input` emits its text: the task
exists, is numbered, has incoming flows, and backward tracing found both a
forward step source and a start-event trigger source. -/
def step_trigger_fires (m : BPMNModel) (task_id : String) : Bool :=
  match dget m.tasks task_id with
  | none => false
  | some task =>
    !task.incoming.isEmpty && task.number.isSome &&
    !(step_trigger_sources m task_id).1.isEmpty &&
    !(step_trigger_sources m task_id).2.isEmpty

/-- Condition under which the fallback branch of `_detect_multi_input` emits its
text: no direct AND/OR gateway predecessor, no XOR gateway involvement (direct
or by tracing back to a split), the all-XOR-splits test fails, and the fallback
scan collects more than one step number. -/
def multi_input_fallback_fires (m : BPMNModel) (task_id : String) : Bool :=
  match dget m.tasks task_id with
  | none => false
  | some task =>
    !task.incoming.isEmpty &&
    (multi_join_sources m task.incoming).isEmpty &&
    !(has_xor_src m task.incoming) &&
    !(all_xor_splits m task.incoming) &&
    decide (1 < (fallback_scan m task.incoming).2.length)

/-- `_check_intermediate_event`: name of the first intermediate-event
predecessor with a non-empty name. -/
def check_intermediate_event (m : BPMNModel) (task_id : String) : Option String :=
  match dget m.tasks task_id with
  | none => none
  | some t =>
    t.incoming.findSome? (fun fid =>
      match dget m.flows fid with
      | some fl =>
        match dget m.events fl.source with
        | some e => if e.type = EType.inter ∧ !e.name.isEmpty then some e.name else none
        | none => none
      | none => none)

/-- `_check_intermediate_before_subprocess`: same check for a subprocess. -/
def check_intermediate_before_subprocess (m : BPMNModel) (subprocess_id : String) :
    Option String :=
  match dget m.subprocesses subprocess_id with
  | none => none
  | some sp =>
    sp.incoming.findSome? (fun fid =>
      match dget m.flows fid with
      | some fl =>
        match dget m.events fl.source with
        | some e => if e.type = EType.inter ∧ !e.name.isEmpty then some e.name else none
        | none => none
      | none => none)

/-- Resolution of a task's "normal next" used by non-interrupting boundary
events: next step number, a process end, or nothing. -/
inductive NormalNext where
  | step (n : Nat)
  | ends (name : String)
  | nothing
deriving DecidableEq, Repr

/-- Inner gateway scan of the boundary-event normal-next search: first task or
end target wins, anything else is skipped. -/
def scan_gateway_next : List Target → NormalNext
  | [] => NormalNext.nothing
  | Target.task n _ :: _ => NormalNext.step n
  | Target.endEvent nm _ :: _ => NormalNext.ends nm
  | _ :: rest => scan_gateway_next rest

/-- Outer target scan of the boundary-event normal-next search: a task target
wins; a gateway target is resolved one hop through the gateway and then the
scan stops; an end target wins; other targets are skipped. -/
def scan_task_next (m : BPMNModel) : List Target → NormalNext
  | [] => NormalNext.nothing
  | Target.task n _ :: _ => NormalNext.step n
  | Target.gateway gid _ :: _ => scan_gateway_next (get_target_step_numbers m gid)
  | Target.endEvent nm _ :: _ => NormalNext.ends nm
  | _ :: rest => scan_task_next m rest

/-- `_check_boundary_events`: one formatted sentence per named boundary event
whose outgoing flow reaches a numbered task. -/
def check_boundary_events (m : BPMNModel) (task_id : String) : List String :=
  match dget m.boundary_events task_id with
  | none => []
  | some bds =>
    bds.flatMap (fun boundary =>
      if boundary.name.isEmpty then []
      else
        let target_step : Option Nat :=
          match boundary.outgoing.head? with
          | none => none
          | some fid =>
            match dget m.flows fid with
            | none => none
            | some fl => (dget m.tasks fl.target).bind (fun t => t.number)
        match target_step with
        | none => []
        | some ts =>
          let condition :=
            if boundary.event_type = some "timer" then
              "performing the activity took more than " ++ boundary.name
            else boundary.name ++ " during performing the activity"
          if boundary.interrupting then
            ["If " ++ condition ++ ", stop the activity and proceed to step " ++ toString ts]
          else
            match scan_task_next m (get_target_step_numbers m task_id) with
            | NormalNext.step y =>
              ["If " ++ condition ++ ", proceed to step " ++ toString ts ++
               " and complete the activity, then proceed to step " ++ toString y]
            | NormalNext.ends e =>
              ["If " ++ condition ++ ", proceed to step " ++ toString ts ++
               " and complete the activity, then Process Ends (" ++ e ++ ")"]
            | NormalNext.nothing =>
              ["If " ++ condition ++ ", proceed to step " ++ toString ts ++
               " and complete the activity"])

/-- The `routing_verb` choice shared by the subprocess and intermediate-chain
code paths: "Revert" when a current step is given and the target step is less
than or equal to it. -/
def revert_le (current : Option Nat) (nxt : Nat) : Bool :=
  match current with
  | some c => nxt ≤ c
  | none => false

/-- Step numbers of the task targets in a resolved target list. -/
def task_steps (ts : List Target) : List Nat :=
  ts.flatMap (fun t =>
    match t with
    | Target.task n _ => [n]
    | _ => [])

/-- `' and Step '` / `' and/or Step '` join of step numbers per gateway type. -/
def steps_join (t : GType) (steps : List Nat) : String :=
  String.intercalate (if t = GType.OR then " and/or Step " else " and Step ") (steps.map toString)

/-- `_check_task_intermediate_chain`: when the task's first resolved target is an
intermediate event, render the composite "Wait for E ..." sentence by resolving
what follows the event (subprocess, gateway, task or end). -/
def check_task_intermediate_chain (m : BPMNModel) (task_id : String)
    (current : Option Nat) : Option String :=
  match get_target_step_numbers m task_id with
  | Target.intermediate event_id _ :: _ =>
    (match dget m.events event_id with
     | none => none
     | some event =>
       let event_name := event.name
       let wp :=
         if event_name.toLower.startsWith "wait for " then ""
         else if event_name.toLower.startsWith "wait until " then ""
         else "Wait for "
       let heading := wp ++ event_name
       match get_target_step_numbers m event_id with
       | [] => some heading
       | ft :: _ =>
         match ft with
         | Target.subprocess spid _ =>
           (match dget m.subprocesses spid with
            | none => some heading
            | some sp =>
              let sfx := if sp.name.toLower.endsWith "process" then "" else " Process"
              match get_target_step_numbers m spid with
              | Target.task nxt _ :: _ =>
                let verb := if revert_le current nxt then "Revert" else "Proceed"
                some (heading ++ " and Then Start " ++ sp.name ++ sfx ++
                      " Then " ++ verb ++ " to Step " ++ toString nxt)
              | Target.endEvent enm _ :: _ =>
                some (heading ++ " and Then Start " ++ sp.name ++ sfx ++
                      ", then Process Ends (" ++ enm ++ ")")
              | _ => some (heading ++ " and Then Start " ++ sp.name ++ sfx))
         | Target.gateway gid _ =>
           (match dget m.gateways gid with
            | none => some heading
            | some gw =>
              let gts := get_target_step_numbers m gid
              let parallelText : Option String :=
                if ((gw.type = GType.AND || gw.type = GType.OR) &&
                    decide (1 < gw.outgoing.length)) then
                  let tt := (task_steps gts).insertionSort (· ≤ ·)
                  if !tt.isEmpty then
                    some (heading ++ " and Then Proceed to Step " ++ steps_join gw.type tt)
                  else none
                else none
              match parallelText with
              | some s => some s
              | none =>
                match scan_gateway_next gts with
                | NormalNext.step nxt =>
                  let verb := if revert_le current nxt then "Revert" else "Proceed"
                  some (heading ++ " and Then " ++ verb ++ " to Step " ++ toString nxt)
                | NormalNext.ends enm => some (heading ++ ", then Process Ends (" ++ enm ++ ")")
                | NormalNext.nothing => some heading)
         | Target.task nxt _ =>
           let verb := if revert_le current nxt then "Revert" else "Proceed"
           some (heading ++ " and Then " ++ verb ++ " to Step " ++ toString nxt)
         | Target.endEvent enm _ => some (heading ++ ", then Process Ends (" ++ enm ++ ")")
         | Target.intermediate _ _ => some heading)
  | _ => none

/-- Resolved destination of a gateway case (`target_type` plus its payload). -/
inductive CaseDest where
  | task (step : Nat)
  | ends (name : String)
  | subprocess (name : String) (id : String)
  | parallel (targets : List Nat) (gtype : GType)
  | interTask (event : String) (step : Nat)
  | interEnd (event : String) (name : String)
  | interSubprocess (event : String) (name : String) (id : String)
  | interParallel (event : String) (targets : List Nat) (gtype : GType)
deriving DecidableEq, Repr

/-- A `cases_with_dest` record of `_generate_gateway_rows`. -/
structure GWCase where
  flow_name : String
  flow_documentation : Option String
  dest : CaseDest
  is_revert : Bool
  sort_key : Int × Int
deriving DecidableEq, Repr

/-- Dict write with overwrite (`d[k] = v`). -/
def dinsert (d : List (String × α)) (k : String) (v : α) : List (String × α) :=
  (d.filter (fun p => p.1 ≠ k)) ++ [(k, v)]

/-- `flow_doc_by_name` of `_generate_gateway_rows`: map each truthy flow name of
the gateway's outgoing flows to that flow's truthy documentation. -/
def flow_doc_by_name (m : BPMNModel) (outgoing : List String) : List (String × String) :=
  outgoing.foldl (fun d fid =>
    match dget m.flows fid with
    | none => d
    | some f =>
      if truthyS f.documentation && !f.name.isEmpty then
        dinsert d f.name (f.documentation.getD "")
      else d) []

/-- Gateway-case records for a flow that reaches a nested gateway
(`target_type == 'gateway'` branch): an AND/OR split with more than one outgoing
flow becomes a single parallel case keyed by its smallest task target with a
strict `<` revert test; any other nested gateway contributes one case per task
or end target, task cases again with the strict `<` revert test. -/
def nested_gateway_cases (m : BPMNModel) (parent_step : Nat)
    (fdocs : List (String × String)) (igid : String) (flow_name : String) : List GWCase :=
  let itargets := get_target_step_numbers m igid
  let scanCases : List GWCase :=
    itargets.flatMap (fun it =>
      match it with
      | Target.task tv _ =>
        let is_rev := tv < parent_step
        [{ flow_name := if flow_name.isEmpty then "[CONDITION UNLABELED]" else flow_name,
           flow_documentation := dget fdocs flow_name,
           dest := CaseDest.task tv,
           is_revert := is_rev,
           sort_key := if is_rev then ((0 : Int), (tv : Int)) else (1, -(tv : Int)) }]
      | Target.endEvent enm _ =>
        [{ flow_name := if flow_name.isEmpty then "Complete" else flow_name,
           flow_documentation := dget fdocs flow_name,
           dest := CaseDest.ends enm,
           is_revert := false,
           sort_key := (-1, 0) }]
      | _ => [])
  match dget m.gateways igid with
  | some ig =>
    if (ig.type = GType.AND || ig.type = GType.OR) && decide (1 < ig.outgoing.length) then
      match (task_steps itargets).insertionSort (· ≤ ·) with
      | [] => []
      | first_num :: more =>
        let is_rev := first_num < parent_step
        [{ flow_name := if flow_name.isEmpty then "[CONDITION UNLABELED]" else flow_name,
           flow_documentation := dget fdocs flow_name,
           dest := CaseDest.parallel (first_num :: more) ig.type,
           is_revert := is_rev,
           sort_key := if is_rev then ((0 : Int), (first_num : Int)) else (1, -(first_num : Int)) }]
    else scanCases
  | none => scanCases

/-- Gateway-case records for a flow that reaches an intermediate event
(`target_type == 'intermediate'` branch): resolve the event's first target. -/
def intermediate_cases (m : BPMNModel) (parent_step : Nat)
    (fdocs : List (String × String)) (evid : String) (flow_name : String) : List GWCase :=
  match dget m.events evid with
  | none => []
  | some event =>
    let event_name := if event.name.isEmpty then "Event" else event.name
    match get_target_step_numbers m evid with
    | [] => []
    | ft :: _ =>
      match ft with
      | Target.task tv _ =>
        let is_rev := tv ≤ parent_step
        [{ flow_name := if flow_name.isEmpty then "[CONDITION UNLABELED]" else flow_name,
           flow_documentation := dget fdocs flow_name,
           dest := CaseDest.interTask event_name tv,
           is_revert := is_rev,
           sort_key := if is_rev then ((0 : Int), (tv : Int)) else (1, -(tv : Int)) }]
      | Target.endEvent enm _ =>
        [{ flow_name := if flow_name.isEmpty then "Complete" else flow_name,
           flow_documentation := dget fdocs flow_name,
           dest := CaseDest.interEnd event_name enm,
           is_revert := false,
           sort_key := (-1, 0) }]
      | Target.subprocess spid _ =>
        (match dget m.subprocesses spid with
         | none => []
         | some sp =>
           [{ flow_name := if flow_name.isEmpty then "Proceed" else flow_name,
              flow_documentation := dget fdocs flow_name,
              dest := CaseDest.interSubprocess event_name sp.name spid,
              is_revert := false,
              sort_key := (1, 5000) }])
      | Target.gateway igid2 _ =>
        let igt := get_target_step_numbers m igid2
        let scanCase : List GWCase :=
          (igt.findSome? (fun it =>
            match it with
            | Target.task tv _ =>
              let is_rev := tv < parent_step
              some { flow_name := if flow_name.isEmpty then "[CONDITION UNLABELED]" else flow_name,
                     flow_documentation := dget fdocs flow_name,
                     dest := CaseDest.interTask event_name tv,
                     is_revert := is_rev,
                     sort_key := if is_rev then ((0 : Int), (tv : Int)) else (1, -(tv : Int)) }
            | Target.endEvent enm _ =>
              some { flow_name := if flow_name.isEmpty then "Complete" else flow_name,
                     flow_documentation := dget fdocs flow_name,
                     dest := CaseDest.interEnd event_name enm,
                     is_revert := false,
                     sort_key := (-1, 0) }
            | _ => none)).toList
        (match dget m.gateways igid2 with
         | some ig2 =>
           if (ig2.type = GType.AND || ig2.type = GType.OR) && decide (1 < ig2.outgoing.length) then
             match (task_steps igt).insertionSort (· ≤ ·) with
             | [] => []
             | first_num :: more =>
               let is_rev := first_num < parent_step
               [{ flow_name := if flow_name.isEmpty then "[CONDITION UNLABELED]" else flow_name,
                  flow_documentation := dget fdocs flow_name,
                  dest := CaseDest.interParallel event_name (first_num :: more) ig2.type,
                  is_revert := is_rev,
                  sort_key := if is_rev then ((0 : Int), (first_num : Int))
                              else (1, -(first_num : Int)) }]
           else scanCase
         | none => scanCase)
      | Target.intermediate _ _ => []

/-- One iteration of the `cases_with_dest` loop of `_generate_gateway_rows`:
the case records contributed by a single resolved target. -/
def case_of_target (m : BPMNModel) (parent_step : Nat) (fdocs : List (String × String)) :
    Target → List GWCase
  | Target.task tv flow_name =>
    let is_rev := tv ≤ parent_step
    [{ flow_name := if flow_name.isEmpty then "[CONDITION UNLABELED]" else flow_name,
       flow_documentation := dget fdocs flow_name,
       dest := CaseDest.task tv,
       is_revert := is_rev,
       sort_key := if is_rev then ((0 : Int), (tv : Int)) else (1, -(tv : Int)) }]
  | Target.endEvent enm flow_name =>
    [{ flow_name := if flow_name.isEmpty then "Complete" else flow_name,
       flow_documentation := dget fdocs flow_name,
       dest := CaseDest.ends enm,
       is_revert := false,
       sort_key := (-1, 0) }]
  | Target.subprocess spid flow_name =>
    (match dget m.subprocesses spid with
     | none => []
     | some sp =>
       [{ flow_name := if flow_name.isEmpty then "Proceed" else flow_name,
          flow_documentation := dget fdocs flow_name,
          dest := CaseDest.subprocess sp.name spid,
          is_revert := false,
          sort_key := (1, 5000) }])
  | Target.gateway igid flow_name => nested_gateway_cases m parent_step fdocs igid flow_name
  | Target.intermediate evid flow_name => intermediate_cases m parent_step fdocs evid flow_name

/-- All `cases_with_dest` records of `_generate_gateway_rows`, in target order. -/
def gateway_cases (m : BPMNModel) (parent_step : Nat) (gateway_id : String) : List GWCase :=
  match dget m.gateways gateway_id with
  | none => []
  | some gateway =>
    (get_target_step_numbers m gateway_id).flatMap
      (case_of_target m parent_step (flow_doc_by_name m gateway.outgoing))

/-- Lexicographic order on the `(rank, tiebreak)` sort keys (Python tuple order:
ends `(-1,0)` first, then reverts `(0, target)` ascending, then proceeds
`(1, -target)`, i.e. descending by target). -/
def key_le (a b : Int × Int) : Prop :=
  a.1 < b.1 ∨ (a.1 = b.1 ∧ a.2 ≤ b.2)

instance (a b : Int × Int) : Decidable (key_le a b) := by
  unfold key_le
  infer_instance

/-- The case list after the stable sort by `sort_key`. -/
def sorted_gateway_cases (m : BPMNModel) (parent_step : Nat) (gateway_id : String) :
    List GWCase :=
  (gateway_cases m parent_step gateway_id).insertionSort
    (fun a b => key_le a.sort_key b.sort_key)

/-- Explanation paragraph of a case: its flow documentation if truthy, else the
bracketed placeholder naming the flow. -/
def case_explanation (c : GWCase) : String :=
  if truthyS c.flow_documentation then c.flow_documentation.getD ""
  else "[Condition explanation for " ++ c.flow_name ++ "]"

/-- Routing paragraph of a case, per resolved destination kind. -/
def case_routing_text (m : BPMNModel) (parent_step : Nat) (c : GWCase) : String :=
  match c.dest with
  | CaseDest.task tv =>
    (if c.is_revert then "Revert to" else "Proceed to") ++ " Step " ++ toString tv
  | CaseDest.ends enm => "Process Ends (" ++ enm ++ ")"
  | CaseDest.subprocess spname spid =>
    (match get_target_step_numbers m spid with
     | Target.task nxt _ :: _ =>
       let verb := if nxt ≤ parent_step then "Revert" else "Proceed"
       "Start " ++ spname ++ " Process, then " ++ verb ++ " to Step " ++ toString nxt
     | Target.gateway spgid _ :: _ =>
       (match dget m.gateways spgid with
        | some spgw =>
          if (spgw.type = GType.AND || spgw.type = GType.OR) &&
             decide (1 < spgw.outgoing.length) then
            match (task_steps (get_target_step_numbers m spgid)).insertionSort (· ≤ ·) with
            | [] => "Start " ++ spname ++ " Process"
            | first_num :: more =>
              let verb := if first_num ≤ parent_step then "Revert" else "Proceed"
              "Start " ++ spname ++ " Process, then " ++ verb ++ " to Step " ++
                steps_join spgw.type (first_num :: more)
          else "Start " ++ spname ++ " Process"
        | none => "Start " ++ spname ++ " Process")
     | Target.endEvent enm _ :: _ =>
       "Start " ++ spname ++ " Process, then Process Ends (" ++ enm ++ ")"
     | _ => "Start " ++ spname ++ " Process")
  | CaseDest.parallel tgts gt =>
    (if c.is_revert then "Revert to" else "Proceed to") ++ " Step " ++ steps_join gt tgts
  | CaseDest.interTask ev tv =>
    "Wait until " ++ ev ++ " Then " ++ (if c.is_revert then "Revert to" else "Proceed to") ++
      " Step " ++ toString tv
  | CaseDest.interEnd ev enm => "Wait until " ++ ev ++ ", then Process Ends (" ++ enm ++ ")"
  | CaseDest.interSubprocess ev spname spid =>
    let sfx := if spname.toLower.endsWith "process" then "" else " Process"
    (match get_target_step_numbers m spid with
     | Target.task nxt _ :: _ =>
       let rv := if nxt ≤ parent_step then "Revert" else "Proceed"
       "Wait until " ++ ev ++ " Then Start " ++ spname ++ sfx ++ ", then " ++ rv ++
         " to Step " ++ toString nxt
     | Target.endEvent enm _ :: _ =>
       "Wait until " ++ ev ++ " Then Start " ++ spname ++ sfx ++
         ", then Process Ends (" ++ enm ++ ")"
     | _ => "Wait until " ++ ev ++ " Then Start " ++ spname ++ sfx)
  | CaseDest.interParallel ev tgts gt =>
    "Wait until " ++ ev ++ " Then " ++ (if c.is_revert then "Revert to" else "Proceed to") ++
      " Step " ++ steps_join gt tgts

/-- `_generate_gateway_rows`: sort the cases, letter them `A, B, C, ...` and
build one five-paragraph row per case, inheriting the parent's RACI and
carrying no SLA. -/
def generate_gateway_rows (m : BPMNModel) (parent_step : Nat) (gateway_id : String)
    (parent_raci : Option Raci) : List Row :=
  match dget m.gateways gateway_id with
  | none => []
  | some _ =>
    if (get_target_step_numbers m gateway_id).isEmpty then []
    else
      (sorted_gateway_cases m parent_step gateway_id).enum.map (fun p =>
        let letter := String.singleton (Char.ofNat (65 + p.1))
        let c := p.2
        { ref := toString parent_step ++ letter,
          is_gateway := true,
          sla := none,
          sla_group := none,
          raci := parent_raci.getD defaultRaci,
          paragraphs := [
            para ("Case " ++ letter ++ ": " ++ c.flow_name) 12 true,
            emptyPara,
            para (case_explanation c) 11 false,
            emptyPara,
            para (case_routing_text m parent_step c) 12 true] })

/-- Result of the parallel-join-to-end scan at the top of the per-task routing
logic of `generate_sop_rows` (lines 1198-1244). -/
inductive JoinEndResult where
  | handled (txt : String)
  | fellThrough
deriving DecidableEq, Repr

/-- The `other_steps` collected for a parallel/inclusive join: numbered tasks
feeding the join other than the current task, tracing through gateways. -/
def join_other_steps (m : BPMNModel) (task_id : String) (gw : Gateway) : List Nat :=
  gw.incoming.flatMap (fun gfid =>
    match dget m.flows gfid with
    | none => []
    | some fl =>
      if fl.source = task_id then []
      else
        match dget m.tasks fl.source with
        | some t2 => t2.number.toList
        | none =>
          match dget m.gateways fl.source with
          | some _ => ((trace_gateway_to_task m (sufficient_fuel m) fl.source []).1).toList
          | none => [])

/-- Name carried by the first end-event target of a target list. -/
def first_end_name (ts : List Target) : Option String :=
  ts.findSome? (fun t =>
    match t with
    | Target.endEvent nm _ => some nm
    | _ => none)

/-- Whether a target list contains a task target. -/
def has_task_target (ts : List Target) : Bool :=
  ts.any (fun t =>
    match t with
    | Target.task _ _ => true
    | _ => false)

/-- The parallel-join-to-end scan: find the first unseen AND/OR join gateway
among the task's targets whose own targets include an end event and no task;
emit the "Wait until step ... completed then Process Ends (...)" sentence when
other branch tasks exist, otherwise stop the scan without handling (the
source `break`s either way). -/
def join_end_scan (m : BPMNModel) (task_id : String) :
    List Target → List String → JoinEndResult
  | [], _ => JoinEndResult.fellThrough
  | tgt :: rest, seen =>
    match tgt with
    | Target.gateway gid _ =>
      if seen.contains gid then join_end_scan m task_id rest seen
      else
        let seen' := gid :: seen
        match dget m.gateways gid with
        | some gw =>
          if (gw.type = GType.AND || gw.type = GType.OR) && decide (1 < gw.incoming.length) then
            let jts := get_target_step_numbers m gid
            match first_end_name jts with
            | some end_name =>
              if !has_task_target jts then
                let others := join_other_steps m task_id gw
                if !others.isEmpty then
                  JoinEndResult.handled ("Wait until step " ++
                    String.intercalate " and step " ((dedup_sorted others).map toString) ++
                    " completed then Process Ends (" ++ end_name ++ ")")
                else JoinEndResult.fellThrough
              else join_end_scan m task_id rest seen'
            | none => join_end_scan m task_id rest seen'
          else join_end_scan m task_id rest seen'
        | none => join_end_scan m task_id rest seen'
    | _ => join_end_scan m task_id rest seen

/-- Trailing routing of one task row: the paragraphs appended to the task's own
row and the gateway-case rows appended after it (lines 1195-1359). -/
def task_routing (m : BPMNModel) (task_id : String) (step_num : Nat) (task_raci : Raci)
    (targets : List Target) : List Paragraph × List Row :=
  if targets.isEmpty then ([], [])
  else
    match join_end_scan m task_id targets [] with
    | JoinEndResult.handled wait_text => ([emptyPara, para wait_text 12 true], [])
    | JoinEndResult.fellThrough =>
      match targets with
      | [Target.gateway gateway_id _] =>
        (match dget m.gateways gateway_id with
         | none => ([], [])
         | some gateway =>
           if (gateway.type = GType.AND || gateway.type = GType.OR) &&
              gateway.incoming.length = 1 && decide (1 < gateway.outgoing.length) then
             let tts := (task_steps (get_target_step_numbers m gateway_id)).insertionSort (· ≤ ·)
             if 1 < tts.length then
               ([emptyPara, para ("Proceed to Step " ++ steps_join gateway.type tts) 12 true], [])
             else ([], [])
           else if gateway.type = GType.XOR then
             ([], generate_gateway_rows m step_num gateway_id (some task_raci))
           else ([], []))
      | [Target.subprocess subprocess_id _] =>
        (match dget m.subprocesses subprocess_id with
         | none => ([], [])
         | some sp =>
           let iev := check_intermediate_before_subprocess m subprocess_id
           let sts := get_target_step_numbers m subprocess_id
           let sfx := if sp.name.toLower.endsWith "process" then "" else " Process"
           let txt :=
             match iev with
             | some ev =>
               match sts with
               | Target.task nxt _ :: _ =>
                 let verb := if nxt ≤ step_num then "Revert" else "Proceed"
                 "Wait for " ++ ev ++ " and Then Start " ++ sp.name ++ sfx ++ " Then " ++
                   verb ++ " to Step " ++ toString nxt
               | Target.endEvent enm _ :: _ =>
                 "Wait for " ++ ev ++ " and Then Start " ++ sp.name ++ sfx ++
                   ", then Process Ends (" ++ enm ++ ")"
               | _ => "Wait for " ++ ev ++ " and Then Start " ++ sp.name ++ sfx
             | none =>
               match sts with
               | Target.endEvent enm _ :: _ =>
                 "Start " ++ sp.name ++ sfx ++ ", then Process Ends (" ++ enm ++ ")"
               | Target.task nxt _ :: _ =>
                 let verb := if nxt ≤ step_num then "Revert" else "Proceed"
                 "Start " ++ sp.name ++ sfx ++ " Then " ++ verb ++ " to Step " ++ toString nxt
               | _ => "Start " ++ sp.name ++ sfx
           ([emptyPara, para txt 12 true], []))
      | [Target.endEvent enm _] =>
        ([emptyPara, para ("Process Ends (" ++ enm ++ ")") 12 true], [])
      | ts =>
        if decide (1 < ts.length) &&
           ts.all (fun t =>
             match t with
             | Target.task _ _ => true
             | _ => false) then
          let steps2 := (task_steps ts).insertionSort (· ≤ ·)
          ([emptyPara,
            para ("Proceed to Step " ++
              String.intercalate " and Step " (steps2.map toString)) 12 true], [])
        else ([], [])

/-- Per-task body of the `generate_sop_rows` loop: build the task's own row
(title with optional Step Input, description from lane and documentation,
extra documentation paragraphs, subprocess chain, boundary events, revert
sentence), then append the trailing routing paragraphs and gateway rows. -/
def process_task (m : BPMNModel) (task_id : String) (task : Task) : List Row :=
  match task.number with
  | none => []
  | some step_num =>
    let lane_name := task.lane
    let task_label := task.label
    let task_subprocess_chain := check_task_intermediate_chain m task_id (some step_num)
    let intermediate_event :=
      if task_subprocess_chain.isSome then none else check_intermediate_event m task_id
    let multi_input := detect_multi_input m task_id
    let title_text :=
      match multi_input with
      | some s => task_label ++ " " ++ s
      | none => task_label
    let doc_lines : List String :=
      match task.documentation with
      | some d => (d.splitOn "\n").map rstrip
      | none => []
    let extra_doc_lines := doc_lines.drop 1
    let first_line := (doc_lines.headD "").trim
    let desc_core :=
      match intermediate_event with
      | some ev =>
        if !first_line.isEmpty then
          if first_line.toLower.startsWith "shall " then
            "The " ++ lane_name ++ " shall wait until " ++ ev ++ " Then " ++
              (first_line.drop 6).trim
          else "The " ++ lane_name ++ " shall wait until " ++ ev ++ " Then " ++ first_line
        else "The " ++ lane_name ++ " shall wait until " ++ ev ++ " Then " ++ task_label.toLower
      | none =>
        if !first_line.isEmpty then
          if first_line.toLower.startsWith "shall " then "The " ++ lane_name ++ " " ++ first_line
          else "The " ++ lane_name ++ " shall " ++ first_line
        else "The " ++ lane_name ++ " shall " ++ task_label.toLower
    let desc_text := ensure_period desc_core
    let boundary_texts := check_boundary_events m task_id
    let targets := get_target_step_numbers m task_id
    let revert_step := targets.findSome? (fun t =>
      match t with
      | Target.task n _ => if n < step_num then some n else none
      | _ => none)
    let extra_block : List Paragraph :=
      if extra_doc_lines.isEmpty then []
      else
        match (extra_doc_lines.map rstrip).filter (fun l => !l.isEmpty) with
        | [] => [emptyPara]
        | l :: ls =>
          emptyPara :: ((l :: ls).dropLast.map (fun t => para t 11 false)) ++
            [para (ensure_period ((l :: ls).getLast (by simp))) 11 false]
    let chain_block :=
      match task_subprocess_chain with
      | some s => [emptyPara, para s 12 true]
      | none => []
    let boundary_block := boundary_texts.flatMap (fun t => [emptyPara, para t 11 true])
    let revert_block :=
      match revert_step with
      | some r => [emptyPara, para ("Revert to Step " ++ toString r) 12 true]
      | none => []
    let sla2 := get_task_sla m task_id
    let task_raci :=
      match task.lane_id with
      | some lid => (dget m.lane_raci lid).getD defaultRaci
      | none => defaultRaci
    let base_paragraphs :=
      [para title_text 12 true, emptyPara, para desc_text 11 false] ++
      extra_block ++ chain_block ++ boundary_block ++ revert_block
    let routing := task_routing m task_id step_num task_raci targets
    { ref := toString step_num, is_gateway := false, sla := sla2.1, sla_group := sla2.2,
      raci := task_raci, paragraphs := base_paragraphs ++ routing.1 } :: routing.2

/-- The numbered tasks, stably sorted ascending by step number
(`sorted(..., key=lambda x: int(x[1]['number']))`). -/
def sorted_tasks (m : BPMNModel) : List (String × Task) :=
  (m.tasks.filter (fun p => p.2.number.isSome)).insertionSort
    (fun a b => a.2.number.getD 0 ≤ b.2.number.getD 0)

/-- `generate_sop_rows`: one task row per numbered task in ascending step order,
followed by its gateway-case rows when its successor is an XOR split. -/
def generate_sop_rows (m : BPMNModel) : List Row :=
  (sorted_tasks m).flatMap (fun p => process_task m p.1 p.2)

/-- `get_process_inputs`: start events by input number with their names (or the
first named outgoing flow's name). -/
def get_process_inputs (m : BPMNModel) : String :=
  let sens := get_start_event_numbers m
  let iwn := sens.flatMap (fun p =>
    match dget m.events p.1 with
    | none => []
    | some e =>
      if !e.name.isEmpty then [(p.2, e.name)]
      else
        match e.outgoing.findSome? (fun fid =>
          match dget m.flows fid with
          | some fl => if !fl.name.isEmpty then some fl.name else none
          | none => none) with
        | some nm => [(p.2, nm)]
        | none => [])
  let sortedn := iwn.insertionSort (fun a b => a.1 ≤ b.1)
  if sortedn.isEmpty then ""
  else String.intercalate "\n" (sortedn.map (fun p => toString p.1 ++ ". " ++ p.2))

/-- `get_process_outputs`: named end events, numbered in table order. -/
def get_process_outputs (m : BPMNModel) : String :=
  let outs := m.events.flatMap (fun p =>
    if p.2.type = EType.endE ∧ !p.2.name.isEmpty then [p.2.name] else [])
  if outs.isEmpty then ""
  else String.intercalate "\n" (outs.enum.map (fun p => toString (p.1 + 1) ++ ". " ++ p.2))

/-- The context dict returned by `parse_bpmn_to_sop` (renderer-only list fields
such as `abbreviations_list` are elided; no claim concerns them). -/
structure SOPContext where
  process_name : String
  process_code : String
  issued_by : String
  release_date : String
  process_owner : String
  purpose : String
  scope : String
  abbreviations : String
  references : String
  inputs : String
  outputs : String
  steps : List Row
deriving DecidableEq, Repr

/-- `metadata.get(key, default)`. -/
def mget (md : List (String × String)) (k d : String) : String :=
  (List.lookup k md).getD d

/-- `parse_bpmn_to_sop`: the `try` body builds the model and generates rows; the
`except` branch catches any failure and returns the fallback context whose
`steps` is a single `'ERROR'` row holding the message.  Failures of the
external XML parser (`etree.fromstring` inside `BPMNParser.__init__`) are
modelled by the `Except.error` input. -/
def parse_bpmn_to_sop (parse_result : Except String BPMNModel)
    (metadata : List (String × String)) : SOPContext :=
  match parse_result with
  | Except.ok m =>
    { process_name := mget metadata "process_name" "",
      process_code := mget metadata "process_code" "",
      issued_by := mget metadata "issued_by" "Business Excellence",
      release_date := mget metadata "release_date" "TBD",
      process_owner := mget metadata "process_owner" "",
      purpose := mget metadata "purpose" "",
      scope := mget metadata "scope" "",
      abbreviations := mget metadata "abbreviations" "",
      references := mget metadata "references" "",
      inputs := mget metadata "inputs" (get_process_inputs m),
      outputs := mget metadata "outputs" (get_process_outputs m),
      steps := generate_sop_rows m }
  | Except.error e =>
    { process_name := mget metadata "process_name" "ERROR",
      process_code := "",
      issued_by := "",
      release_date := "TBD",
      process_owner := "",
      purpose := "",
      scope := "",
      abbreviations := "",
      references := "",
      inputs := "",
      outputs := "",
      steps := [{ ref := "ERROR", is_gateway := false, sla := none, sla_group := none,
                  raci := defaultRaci,
                  paragraphs := [{ text := "Parse error: " ++ e, font_size := 11,
                                   bold := false, alignment := "JUSTIFY" }] }] }

/-- Length of the run of gateway-case rows starting at index `j`
(the `while j < len(steps) and steps[j].get('is_gateway', False)` loops of
`create_word_doc_from_template`). -/
def gw_run_len (steps : List Row) (j : Nat) : Nat :=
  ((steps.drop j).takeWhile (fun s => s.is_gateway)).length

/-- Number of rows consumed by the SLA-group loop from a row suffix: while the
head row carries the group id, consume it and its trailing gateway-case rows. -/
def group_consume (g : String) : List Row → Nat
  | [] => 0
  | r :: rest =>
    if r.sla_group = some g then
      let gws := (rest.takeWhile (fun s => s.is_gateway)).length
      1 + gws + group_consume g (rest.drop gws)
    else 0
  termination_by l => l.length
  decreasing_by
    simp only [List.length_drop, List.length_cons]
    omega

/-- Final index reached by the SLA-group loop started at index `j`. -/
def group_scan (steps : List Row) (g : String) (j : Nat) : Nat :=
  j + group_consume g (steps.drop j)

/-- The SLA merge-range scan of `create_word_doc_from_template` (app.py lines
324-367), from index `idx`: a row with a truthy own SLA and no group absorbs
the following gateway-case run; a row with a truthy SLA group also absorbs
subsequent rows carrying the same group id plus their gateway-case runs; other
rows are skipped together with their trailing gateway-case runs.  Each emitted
range is `(merge_start, merge_end, sla-of-start-row)`. -/
def sla_merges_from (steps : List Row) (idx : Nat) : List (Nat × Nat × Option String) :=
  if h : idx < steps.length then
    let st := steps.get ⟨idx, h⟩
    if truthyS st.sla && !truthyS st.sla_group then
      let jf := idx + 1 + gw_run_len steps (idx + 1)
      (idx, jf - 1, st.sla) :: sla_merges_from steps jf
    else if truthyS st.sla_group then
      let g := st.sla_group.getD ""
      let jf := group_scan steps g (idx + 1 + gw_run_len steps (idx + 1))
      (idx, jf - 1, st.sla) :: sla_merges_from steps jf
    else sla_merges_from steps (idx + 1 + gw_run_len steps (idx + 1))
  else []
  termination_by steps.length - idx
  decreasing_by
    · omega
    · simp only [group_scan]
      omega
    · omega

/-- The full merge-range list (`sla_merges` of `create_word_doc_from_template`). -/
def sla_merges (steps : List Row) : List (Nat × Nat × Option String) :=
  sla_merges_from steps 0

/-! ### Concrete witness and counterexample models -/

/-- Witness model: `S → T1 → G(XOR) → {Approved → T3, Rejected → T1}`, `T3 → End`. -/
def mW : BPMNModel :=
  { tasks := [
      ("T1", { label := "Check", lane := "Ops", number := some 1,
               incoming := ["f0", "fr"], outgoing := ["fg"] }),
      ("T3", { label := "Ship", lane := "Ops", number := some 3,
               incoming := ["fa"], outgoing := ["fe"] })],
    gateways := [("G", { type := GType.XOR, incoming := ["fg"], outgoing := ["fa", "fr"] })],
    events := [
      ("S", { name := "Order", type := EType.start, outgoing := ["f0"] }),
      ("E", { name := "Done", type := EType.endE, incoming := ["fe"] })],
    flows := [
      ("f0", { source := "S", target := "T1" }),
      ("fg", { source := "T1", target := "G" }),
      ("fa", { source := "G", target := "T3", name := "Approved" }),
      ("fr", { source := "G", target := "T1", name := "Rejected" }),
      ("fe", { source := "T3", target := "E" })] }

/-- A sample RACI tuple for witnesses. -/
def raciW : Raci :=
  { responsible := "Ops", accountable := "Lead", consulted := "QA", informed := "PM" }

/-- First gateway-case row generated for `mW`'s XOR split (used as a witness). -/
def rowW : Row :=
  (generate_gateway_rows mW 1 "G" (some raciW)).headD { ref := "", is_gateway := false }

/-- Parametric model for the revert-threshold analysis: gateway `G` with a
single flow directly to the task `T1` numbered `t`. -/
def mC3d (t : Nat) : BPMNModel :=
  { tasks := [("T1", { label := "Work", lane := "Ops", number := some t,
                       incoming := ["f1"] })],
    gateways := [("G", { type := GType.XOR, incoming := ["f0"], outgoing := ["f1"] })],
    flows := [("f1", { source := "G", target := "T1", name := "Go" })] }

/-- Parametric model with a nested gateway: `G → G2 → T1` where `T1` is
numbered `t` and `G2` is a second (non-parallel) gateway. -/
def mC3n (t : Nat) : BPMNModel :=
  { tasks := [("T1", { label := "Work", lane := "Ops", number := some t,
                       incoming := ["f2"] })],
    gateways := [
      ("G", { type := GType.XOR, incoming := ["f0"], outgoing := ["f1"] }),
      ("G2", { type := GType.XOR, incoming := ["f1"], outgoing := ["f2"] })],
    flows := [
      ("f1", { source := "G", target := "G2", name := "Go" }),
      ("f2", { source := "G2", target := "T1" })] }

/-- Parametric model with an intermediate event between the gateway and the
task: `G → EV → T1` where `T1` is numbered `t`. -/
def mC3i (t : Nat) : BPMNModel :=
  { tasks := [("T1", { label := "Work", lane := "Ops", number := some t,
                       incoming := ["f2"] })],
    gateways := [("G", { type := GType.XOR, incoming := ["f0"], outgoing := ["f1"] })],
    events := [("EV", { name := "Sig", type := EType.inter,
                        incoming := ["f1"], outgoing := ["f2"] })],
    flows := [
      ("f1", { source := "G", target := "EV", name := "Go" }),
      ("f2", { source := "EV", target := "T1" })] }

/-- Routing paragraph (the fifth paragraph) of a generated row. -/
def routing_of (r : Row) : Option String :=
  (r.paragraphs[4]?).map (fun p => p.text)

/-- Model with an unnumbered intermediary on the forward path:
`T1(step 1) → U(no step number) → T2(step 2)`. -/
def mC7f : BPMNModel :=
  { tasks := [
      ("T1", { label := "A", lane := "Ops", number := some 1, outgoing := ["f1"] }),
      ("U", { label := "Util", lane := "Ops", number := none,
              incoming := ["f1"], outgoing := ["f2"] }),
      ("T2", { label := "B", lane := "Ops", number := some 2, incoming := ["f2"] })],
    flows := [
      ("f1", { source := "T1", target := "U" }),
      ("f2", { source := "U", target := "T2" })] }

/-- Counterexample model for the multi-input claim: a plain two-task fan-in
`T1(1) → T3(3) ← T2(2)` with no gateways and no events at all. -/
def mC4 : BPMNModel :=
  { tasks := [
      ("T1", { label := "A", lane := "Ops", number := some 1, outgoing := ["f13"] }),
      ("T2", { label := "B", lane := "Ops", number := some 2, outgoing := ["f23"] }),
      ("T3", { label := "C", lane := "Ops", number := some 3, incoming := ["f13", "f23"] })],
    flows := [
      ("f13", { source := "T1", target := "T3" }),
      ("f23", { source := "T2", target := "T3" })] }

/-- Counterexample model for the case-count claim: XOR split `G` with two
outgoing flows, one to an unnumbered task `TU` and one to the end event `E`. -/
def mC2 : BPMNModel :=
  { tasks := [
      ("T1", { label := "Ask", lane := "Ops", number := some 1,
               incoming := ["f0"], outgoing := ["fg"] }),
      ("TU", { label := "Util", lane := "Ops", number := none, incoming := ["f1"] })],
    gateways := [("G", { type := GType.XOR, incoming := ["fg"], outgoing := ["f1", "f2"] })],
    events := [("E", { name := "Done", type := EType.endE, incoming := ["f2"] })],
    flows := [
      ("fg", { source := "T1", target := "G" }),
      ("f1", { source := "G", target := "TU", name := "Odd" }),
      ("f2", { source := "G", target := "E", name := "Fine" })] }

/-- An outgoing flow that is present in the flow table and resolves directly to
a numbered task or to an end event (the only destinations for which the
resolver emits exactly one case per flow). -/
def flow_resolves_simple (m : BPMNModel) (fid : String) : Prop :=
  ∃ fl, dget m.flows fid = some fl ∧
    ((∃ t k, dget m.tasks fl.target = some t ∧ t.number = some k) ∨
     (dget m.tasks fl.target = none ∧ dget m.gateways fl.target = none ∧
      dget m.subprocesses fl.target = none ∧
      ∃ e, dget m.events fl.target = some e ∧ e.type = EType.endE))

/-- The ordering of gateway cases as the specification words it, defined on the
resolved destinations for comparison with the implementation's sort keys:
end-event destinations come first; revert destinations (target ≤ parent) come
next, ascending by target step; proceed destinations (target > parent) come
last, descending by target step. -/
def spec_case_le (parent : Nat) : CaseDest → CaseDest → Prop
  | CaseDest.ends _, _ => True
  | _, CaseDest.ends _ => False
  | CaseDest.task t1, CaseDest.task t2 =>
    if t1 ≤ parent then (if t2 ≤ parent then t1 ≤ t2 else True)
    else (if t2 ≤ parent then False else t2 ≤ t1)
  | _, _ => True

/-- Witness model for the parallel-join-to-end rule: `T1 → AND-split → {T2, T3}`,
both `T2` and `T3` feeding the AND-join `GJ`, which leads directly to the end
event "Done". -/
def mC8 : BPMNModel :=
  { tasks := [
      ("T1", { label := "Kick off", lane := "Ops", number := some 1,
               incoming := ["f0"], outgoing := ["fs"] }),
      ("T2", { label := "Left", lane := "Ops", number := some 2,
               incoming := ["f2"], outgoing := ["g2"] }),
      ("T3", { label := "Right", lane := "Ops", number := some 3,
               incoming := ["f3"], outgoing := ["g3"] })],
    gateways := [
      ("GS", { type := GType.AND, incoming := ["fs"], outgoing := ["f2", "f3"] }),
      ("GJ", { type := GType.AND, incoming := ["g2", "g3"], outgoing := ["ge"] })],
    events := [
      ("S", { name := "Go", type := EType.start, outgoing := ["f0"] }),
      ("E", { name := "Done", type := EType.endE, incoming := ["ge"] })],
    flows := [
      ("f0", { source := "S", target := "T1" }),
      ("fs", { source := "T1", target := "GS" }),
      ("f2", { source := "GS", target := "T2" }),
      ("f3", { source := "GS", target := "T3" }),
      ("g2", { source := "T2", target := "GJ" }),
      ("g3", { source := "T3", target := "GJ" }),
      ("ge", { source := "GJ", target := "E" })] }

/-- The task record of `T2` in `mC8`. -/
def tC8 : Task :=
  { label := "Left", lane := "Ops", number := some 2, incoming := ["f2"], outgoing := ["g2"] }

/-- The gateway record of the AND-join `GJ` in `mC8`. -/
def gwC8 : Gateway := { type := GType.AND, incoming := ["g2", "g3"], outgoing := ["ge"] }

/-- Model with an unnumbered task behind which sits a split gateway:
`G(1 in, 2 out) → U(no step number)`. -/
def mC7b : BPMNModel :=
  { tasks := [("U", { label := "Util", lane := "Ops", number := none, incoming := ["f1"] })],
    gateways := [("G", { type := GType.XOR, incoming := ["f0"], outgoing := ["f1", "f3"] })],
    flows := [("f1", { source := "G", target := "U" })] }

/-- Row list for the SLA merge-range scan: an own-SLA task row, a trailing
gateway-case row, then a plain row. -/
def exC6 : List Row :=
  [{ ref := "T1", is_gateway := false, sla := some "3d" },
   { ref := "G1a", is_gateway := true },
   { ref := "T2", is_gateway := false }]

/-! ### Structural lemmas -/

/-- Every row emitted by the Gateway Case Resolver is flagged as a gateway case,
carries no SLA data, and inherits the given RACI (defaulted to all-N/A). -/
theorem mem_generate_gateway_rows {m : BPMNModel} {p : Nat} {gid : String}
    {pr : Option Raci} {row : Row} (h : row ∈ generate_gateway_rows m p gid pr) :
    row.is_gateway = true ∧ row.sla = none ∧ row.sla_group = none ∧
      row.raci = pr.getD defaultRaci := by
  unfold generate_gateway_rows at h
  split at h
  · simp at h
  · split at h
    · simp at h
    · obtain ⟨q, _, rfl⟩ := List.mem_map.mp h
      exact ⟨rfl, rfl, rfl, rfl⟩

/-- Every row in the second component of `task_routing` is a gateway-case row. -/
theorem task_routing_snd_gateway {m : BPMNModel} {tid : String} {sn : Nat} {rc : Raci}
    {ts : List Target} {x : Row} (hx : x ∈ (task_routing m tid sn rc ts).2) :
    x.is_gateway = true := by
  unfold task_routing at hx
  split at hx
  · simp at hx
  · split at hx
    · simp at hx
    · split at hx
      · split at hx
        · simp at hx
        · split at hx
          · dsimp only at hx
            split at hx <;> simp at hx
          · split at hx
            · exact (mem_generate_gateway_rows (by simpa using hx)).1
            · simp at hx
      · split at hx
        · simp at hx
        · dsimp only at hx
          simp at hx
      · simp at hx
      · split at hx <;> simp at hx

/-- `process_task` on a numbered task: its head row is the task's own
(non-gateway) row with the step number as reference, and every following row
is a gateway-case row. -/
theorem process_task_shape {m : BPMNModel} {tid : String} {t : Task} {n : Nat}
    (h : t.number = some n) :
    ∃ row rest, process_task m tid t = row :: rest ∧ row.is_gateway = false ∧
      row.ref = toString n ∧ ∀ x ∈ rest, x.is_gateway = true := by
  unfold process_task
  rw [h]
  exact ⟨_, _, rfl, rfl, rfl, fun x hx => task_routing_snd_gateway hx⟩

/-- Members of `sorted_tasks` are numbered. -/
theorem sorted_tasks_numbered {m : BPMNModel} {p : String × Task}
    (h : p ∈ sorted_tasks m) : p.2.number.isSome := by
  unfold sorted_tasks at h
  have h2 := (List.perm_insertionSort _ _).mem_iff.mp h
  exact (List.mem_filter.mp h2).2

/-- The non-gateway rows of `generate_sop_rows` are exactly one row per sorted
numbered task, in order, referenced by its step number. -/
theorem refs_nonGateway (m : BPMNModel) :
    ((generate_sop_rows m).filter (fun r => !r.is_gateway)).map (fun r => r.ref) =
      (sorted_tasks m).map (fun p => toString (p.2.number.getD 0)) := by
  unfold generate_sop_rows
  have key : ∀ l : List (String × Task), (∀ p ∈ l, p.2.number.isSome) →
      ((l.flatMap (fun p => process_task m p.1 p.2)).filter (fun r => !r.is_gateway)).map
          (fun r => r.ref) =
        l.map (fun p => toString (p.2.number.getD 0)) := by
    intro l
    induction l with
    | nil => intro _; simp
    | cons p ps ih =>
      intro hall
      have hp : p.2.number = some (p.2.number.getD 0) := by
        have := hall p (by simp)
        cases hn : p.2.number with
        | none => rw [hn] at this; simp at this
        | some k => simp [hn]
      obtain ⟨row, rest, heq, hrow, href, hrest⟩ := @process_task_shape m p.1 p.2 _ hp
      have hrestf : rest.filter (fun r => !r.is_gateway) = [] := by
        rw [List.filter_eq_nil_iff]
        intro a ha
        simp [hrest a ha]
      simp only [List.flatMap_cons, List.filter_append, heq, List.filter_cons, hrow,
        Bool.not_false, if_true, hrestf, List.map_cons, List.map_append]
      simp only [List.nil_append, List.map_cons, href]
      rw [ih (fun q hq => hall q (by simp [hq]))]
      simp
  exact key (sorted_tasks m) (fun p hp => sorted_tasks_numbered hp)

/-- The step numbers of the sorted tasks are the sorted step numbers. -/
theorem sorted_tasks_numbers (m : BPMNModel) :
    (sorted_tasks m).map (fun p => p.2.number.getD 0) =
      ((m.tasks.filter (fun p => p.2.number.isSome)).map
        (fun p => p.2.number.getD 0)).insertionSort (· ≤ ·) := by
  set key := fun (p : String × Task) => p.2.number.getD 0 with hkey
  set r := fun (a b : String × Task) => key a ≤ key b with hr
  haveI htot : IsTotal (String × Task) r := ⟨fun a b => Nat.le_total (key a) (key b)⟩
  haveI htr : IsTrans (String × Task) r := ⟨fun a b c hab hbc => Nat.le_trans hab hbc⟩
  have hsorted : ((m.tasks.filter (fun p => p.2.number.isSome)).insertionSort r).Pairwise r :=
    List.sorted_insertionSort r _
  have hs2 : (((m.tasks.filter (fun p => p.2.number.isSome)).insertionSort r).map key).Sorted
      (· ≤ ·) := by
    rw [List.Sorted, List.pairwise_map]
    exact hsorted
  have hs3 : (((m.tasks.filter (fun p => p.2.number.isSome)).map key).insertionSort
      (· ≤ ·)).Sorted (· ≤ ·) := List.sorted_insertionSort _ _
  have hperm : (((m.tasks.filter (fun p => p.2.number.isSome)).insertionSort r).map key).Perm
      (((m.tasks.filter (fun p => p.2.number.isSome)).map key).insertionSort (· ≤ ·)) := by
    have p1 := (List.perm_insertionSort r (m.tasks.filter (fun p => p.2.number.isSome))).map key
    have p2 := List.perm_insertionSort (α := Nat) (· ≤ ·)
      ((m.tasks.filter (fun p => p.2.number.isSome)).map key)
    exact p1.trans p2.symm
  exact List.eq_of_perm_of_sorted hperm hs2 hs3

/-! ### Claim theorems -/

/-- C1: for every BPMN model whose numbered tasks have pairwise distinct step
numbers, the non-gateway rows of `generate_sop_rows` carry exactly the
ascending numeric sort of the numbered tasks' step numbers as their `ref`
values (one row per numbered task, no duplicates, no omissions, no
reordering), and that sequence is strictly increasing. -/
theorem C1_nonGateway_refs_sorted (m : BPMNModel)
    (hnd : ((m.tasks.filter (fun p => p.2.number.isSome)).map
      (fun p => p.2.number.getD 0)).Nodup) :
    ((generate_sop_rows m).filter (fun r => !r.is_gateway)).map (fun r => r.ref) =
      (((m.tasks.filter (fun p => p.2.number.isSome)).map
        (fun p => p.2.number.getD 0)).insertionSort (· ≤ ·)).map toString ∧
    (((m.tasks.filter (fun p => p.2.number.isSome)).map
      (fun p => p.2.number.getD 0)).insertionSort (· ≤ ·)).Pairwise (· < ·) := by
  constructor
  · rw [refs_nonGateway m, ← sorted_tasks_numbers m, List.map_map]
    rfl
  · have hperm := List.perm_insertionSort (α := Nat) (· ≤ ·)
      ((m.tasks.filter (fun p => p.2.number.isSome)).map (fun p => p.2.number.getD 0))
    have hnd2 := hperm.nodup_iff.mpr hnd
    have hs := List.sorted_insertionSort (α := Nat) (· ≤ ·)
      ((m.tasks.filter (fun p => p.2.number.isSome)).map (fun p => p.2.number.getD 0))
    exact (hs.and hnd2).imp (fun h => Nat.lt_of_le_of_ne h.1 h.2)

/-- C1 witness: on the concrete model `mW` (tasks numbered 1 and 3) the
hypothesis holds and the non-gateway refs are `["1", "3"]`, strictly
increasing. -/
theorem C1_witness :
    ((generate_sop_rows mW).filter (fun r => !r.is_gateway)).map (fun r => r.ref) =
      ["1", "3"] := by
  have h := C1_nonGateway_refs_sorted mW (by decide)
  rw [h.1]
  decide

/-- C10: every gateway-case row emitted by the Gateway Case Resolver carries
`sla = None` and `sla_group = None`, is flagged `is_gateway`, and its RACI
tuple is exactly the parent's RACI tuple (or the all-N/A tuple when the parent
has none). -/
theorem C10_gateway_case_row_invariant (m : BPMNModel) (parent : Nat) (gid : String)
    (pr : Option Raci) (row : Row) (h : row ∈ generate_gateway_rows m parent gid pr) :
    row.is_gateway = true ∧ row.sla = none ∧ row.sla_group = none ∧
      row.raci = pr.getD defaultRaci :=
  mem_generate_gateway_rows h

/-- `key_le` is total. -/
theorem key_le_total (a b : Int × Int) : key_le a b ∨ key_le b a := by
  unfold key_le
  rcases Int.lt_trichotomy a.1 b.1 with h | h | h
  · exact Or.inl (Or.inl h)
  · rcases Int.le_total a.2 b.2 with h2 | h2
    · exact Or.inl (Or.inr ⟨h, h2⟩)
    · exact Or.inr (Or.inr ⟨h.symm, h2⟩)
  · exact Or.inr (Or.inl h)

/-- `key_le` is transitive. -/
theorem key_le_trans {a b c : Int × Int} (h1 : key_le a b) (h2 : key_le b c) :
    key_le a c := by
  unfold key_le at h1 h2 ⊢
  rcases h1 with h1 | ⟨h1, h1'⟩ <;> rcases h2 with h2 | ⟨h2, h2'⟩
  · exact Or.inl (h1.trans h2)
  · exact Or.inl (h2 ▸ h1)
  · exact Or.inl (h1 ▸ h2)
  · exact Or.inr ⟨h1.trans h2, h1'.trans h2'⟩

/-- Under simple resolution of every outgoing flow, the resolved target list
has one entry per outgoing flow, each a numbered-task or end-event target. -/
theorem targets_simple {m : BPMNModel} {gid : String} {gw : Gateway}
    (hnt : dget m.tasks gid = none) (hgw : dget m.gateways gid = some gw)
    (hres : ∀ fid ∈ gw.outgoing, flow_resolves_simple m fid) :
    (get_target_step_numbers m gid).length = gw.outgoing.length ∧
    ∀ tg ∈ get_target_step_numbers m gid,
      (∃ k fn, tg = Target.task k fn) ∨ ∃ nm fn, tg = Target.endEvent nm fn := by
  have hone : ∀ fid, flow_resolves_simple m fid →
      ((resolve_target m fid).length = 1 ∧
        ∀ tg ∈ resolve_target m fid,
          (∃ k fn, tg = Target.task k fn) ∨ ∃ nm fn, tg = Target.endEvent nm fn) := by
    intro fid hf
    obtain ⟨fl, hfl, hcase⟩ := hf
    rcases hcase with ⟨t, k, ht, hk⟩ | ⟨h1, h2, h3, e, he, hty⟩
    · have hrt : resolve_target m fid = [Target.task k fl.name] := by
        simp [resolve_target, hfl, ht, hk]
      rw [hrt]
      exact ⟨rfl, fun tg htg => Or.inl ⟨k, fl.name, by simpa using htg⟩⟩
    · have hrt : resolve_target m fid =
          [Target.endEvent (if e.name.isEmpty then "Process Complete" else e.name) fl.name] := by
        simp [resolve_target, hfl, h1, h2, h3, he, hty]
      rw [hrt]
      exact ⟨rfl, fun tg htg => Or.inr ⟨_, fl.name, by simpa using htg⟩⟩
  have key : ∀ l : List String, (∀ fid ∈ l, flow_resolves_simple m fid) →
      ((l.flatMap (resolve_target m)).length = l.length ∧
        ∀ tg ∈ l.flatMap (resolve_target m),
          (∃ k fn, tg = Target.task k fn) ∨ ∃ nm fn, tg = Target.endEvent nm fn) := by
    intro l
    induction l with
    | nil => intro _; simp
    | cons fid rest ih =>
      intro hall
      obtain ⟨hl1, hs1⟩ := hone fid (hall fid (by simp))
      obtain ⟨hl2, hs2⟩ := ih (fun f hf => hall f (by simp [hf]))
      constructor
      · simp only [List.flatMap_cons, List.length_append, hl1, hl2, List.length_cons]
        omega
      · intro tg htg
        rw [List.flatMap_cons, List.mem_append] at htg
        rcases htg with h | h
        · exact hs1 tg h
        · exact hs2 tg h
  unfold get_target_step_numbers
  simp only [hnt, hgw]
  exact key gw.outgoing hres

/-- Under simple resolution, the resolver builds exactly one case per outgoing
flow, each a task case keyed `(0, target)` / `(1, -target)` by the `≤ parent`
revert test, or an end case keyed `(-1, 0)`. -/
theorem gateway_cases_simple {m : BPMNModel} {parent : Nat} {gid : String} {gw : Gateway}
    (hnt : dget m.tasks gid = none) (hgw : dget m.gateways gid = some gw)
    (hres : ∀ fid ∈ gw.outgoing, flow_resolves_simple m fid) :
    (gateway_cases m parent gid).length = gw.outgoing.length ∧
    ∀ c ∈ gateway_cases m parent gid,
      (∃ k, c.dest = CaseDest.task k ∧
        c.sort_key = (if k ≤ parent then ((0 : Int), (k : Int)) else (1, -(k : Int)))) ∨
      (∃ nm, c.dest = CaseDest.ends nm ∧ c.sort_key = ((-1 : Int), (0 : Int))) := by
  obtain ⟨hlen, hshape⟩ := targets_simple hnt hgw hres
  have hone : ∀ (fdocs : List (String × String)) tg,
      ((∃ k fn, tg = Target.task k fn) ∨ ∃ nm fn, tg = Target.endEvent nm fn) →
      ((case_of_target m parent fdocs tg).length = 1 ∧
        ∀ c ∈ case_of_target m parent fdocs tg,
          (∃ k, c.dest = CaseDest.task k ∧
            c.sort_key = (if k ≤ parent then ((0 : Int), (k : Int)) else (1, -(k : Int)))) ∨
          (∃ nm, c.dest = CaseDest.ends nm ∧ c.sort_key = ((-1 : Int), (0 : Int)))) := by
    intro fdocs tg htg
    rcases htg with ⟨k, fn, rfl⟩ | ⟨nm, fn, rfl⟩
    · refine ⟨rfl, ?_⟩
      intro c hc
      simp only [case_of_target, List.mem_singleton] at hc
      subst hc
      by_cases hk : k ≤ parent <;> exact Or.inl ⟨k, rfl, by simp [hk]⟩
    · refine ⟨rfl, ?_⟩
      intro c hc
      simp only [case_of_target, List.mem_singleton] at hc
      subst hc
      exact Or.inr ⟨nm, rfl, rfl⟩
  have key : ∀ (fdocs : List (String × String)) (ts : List Target),
      (∀ tg ∈ ts, (∃ k fn, tg = Target.task k fn) ∨ ∃ nm fn, tg = Target.endEvent nm fn) →
      ((ts.flatMap (case_of_target m parent fdocs)).length = ts.length ∧
        ∀ c ∈ ts.flatMap (case_of_target m parent fdocs),
          (∃ k, c.dest = CaseDest.task k ∧
            c.sort_key = (if k ≤ parent then ((0 : Int), (k : Int)) else (1, -(k : Int)))) ∨
          (∃ nm, c.dest = CaseDest.ends nm ∧ c.sort_key = ((-1 : Int), (0 : Int)))) := by
    intro fdocs ts
    induction ts with
    | nil => intro _; simp
    | cons tg rest ih =>
      intro hall
      obtain ⟨hl1, hs1⟩ := hone fdocs tg (hall tg (by simp))
      obtain ⟨hl2, hs2⟩ := ih (fun x hx => hall x (by simp [hx]))
      constructor
      · simp only [List.flatMap_cons, List.length_append, hl1, hl2, List.length_cons]
        omega
      · intro c hc
        rw [List.flatMap_cons, List.mem_append] at hc
        rcases hc with h | h
        · exact hs1 c h
        · exact hs2 c h
  unfold gateway_cases
  simp only [hgw]
  obtain ⟨h1, h2⟩ := key (flow_doc_by_name m gw.outgoing) _ hshape
  exact ⟨h1.trans hlen, h2⟩

/-- C2 counterexample: the XOR split `G` of `mC2` has two outgoing flows, but
the Gateway Case Resolver produces only one case row — the flow to the
unnumbered task contributes no case, so "exactly N rows for N outgoing flows"
fails. -/
theorem C2_counterexample :
    (dget mC2.gateways "G").map (fun g => g.outgoing.length) = some 2 ∧
    (generate_gateway_rows mC2 1 "G" none).length = 1 := by decide

/-- C2 amended: for an XOR split each of whose outgoing flows is present in the
flow table and resolves directly to a numbered task or an end event, the
resolver produces exactly one case row per outgoing flow; the rows are
lettered `A, B, C, ...` in sorted order with reference `parent ++ letter` and
`is_gateway` set, and the sorted destinations respect the claimed order:
end-event cases first, then reverts (target ≤ parent) ascending by target,
then proceeds (target > parent) descending by target. -/
theorem C2_case_rows_per_flow (m : BPMNModel) (parent : Nat) (gid : String)
    (gw : Gateway) (pr : Option Raci)
    (hnt : dget m.tasks gid = none) (hgw : dget m.gateways gid = some gw)
    (_hx : gw.type = GType.XOR)
    (hres : ∀ fid ∈ gw.outgoing, flow_resolves_simple m fid) :
    (generate_gateway_rows m parent gid pr).length = gw.outgoing.length ∧
    (∀ i row, (generate_gateway_rows m parent gid pr)[i]? = some row →
      row.ref = toString parent ++ String.singleton (Char.ofNat (65 + i)) ∧
      row.is_gateway = true) ∧
    ((sorted_gateway_cases m parent gid).map (fun c => c.dest)).Pairwise
      (spec_case_le parent) := by
  obtain ⟨hclen, hcshape⟩ := gateway_cases_simple hnt hgw hres
  have hperm := List.perm_insertionSort
    (fun a b : GWCase => key_le a.sort_key b.sort_key) (gateway_cases m parent gid)
  have hslen : (sorted_gateway_cases m parent gid).length = gw.outgoing.length := by
    unfold sorted_gateway_cases
    rw [hperm.length_eq, hclen]
  have hrows : generate_gateway_rows m parent gid pr =
      (sorted_gateway_cases m parent gid).enum.map (fun p =>
        let letter := String.singleton (Char.ofNat (65 + p.1))
        let c := p.2
        { ref := toString parent ++ letter,
          is_gateway := true,
          sla := none,
          sla_group := none,
          raci := pr.getD defaultRaci,
          paragraphs := [
            para ("Case " ++ letter ++ ": " ++ c.flow_name) 12 true,
            emptyPara,
            para (case_explanation c) 11 false,
            emptyPara,
            para (case_routing_text m parent c) 12 true] }) := by
    unfold generate_gateway_rows
    simp only [hgw]
    by_cases he : (get_target_step_numbers m gid).isEmpty
    · have he2 := List.isEmpty_iff.mp he
      simp [he, sorted_gateway_cases, gateway_cases, hgw, he2]
    · simp [he]
  refine ⟨?_, ?_, ?_⟩
  · rw [hrows]
    simp only [List.length_map, List.enum_length]
    exact hslen
  · intro i row hrow
    rw [hrows] at hrow
    rw [List.getElem?_map, List.getElem?_enum] at hrow
    cases hc : (sorted_gateway_cases m parent gid)[i]? with
    | none => rw [hc] at hrow; simp at hrow
    | some c =>
      rw [hc] at hrow
      simp only [Option.map_some, Option.map_some', Option.some.injEq] at hrow
      subst hrow
      exact ⟨rfl, rfl⟩
  · have hsorted : (sorted_gateway_cases m parent gid).Pairwise
        (fun a b : GWCase => key_le a.sort_key b.sort_key) := by
      unfold sorted_gateway_cases
      haveI ht : IsTotal GWCase (fun a b : GWCase => key_le a.sort_key b.sort_key) :=
        ⟨fun a b => key_le_total a.sort_key b.sort_key⟩
      haveI htr : IsTrans GWCase (fun a b : GWCase => key_le a.sort_key b.sort_key) :=
        ⟨fun _ _ _ h1 h2 => key_le_trans h1 h2⟩
      exact List.sorted_insertionSort _ _
    have hmem : ∀ c ∈ sorted_gateway_cases m parent gid,
        (∃ k, c.dest = CaseDest.task k ∧
          c.sort_key = (if k ≤ parent then ((0 : Int), (k : Int)) else (1, -(k : Int)))) ∨
        (∃ nm, c.dest = CaseDest.ends nm ∧ c.sort_key = ((-1 : Int), (0 : Int))) := by
      intro c hc
      exact hcshape c (hperm.mem_iff.mp hc)
    rw [List.pairwise_map]
    refine hsorted.imp_of_mem ?_
    intro a b ha hb hk
    rcases hmem a ha with ⟨k1, hd1, hk1⟩ | ⟨nm1, hd1, hk1⟩ <;>
      rcases hmem b hb with ⟨k2, hd2, hk2⟩ | ⟨nm2, hd2, hk2⟩ <;>
      rw [hd1, hd2] <;> rw [hk1, hk2] at hk
    · by_cases h1 : k1 ≤ parent <;> by_cases h2 : k2 ≤ parent <;>
        simp only [h1, h2, if_true, if_false, ite_true, ite_false] at hk ⊢ <;>
        simp only [spec_case_le, h1, h2, if_true, if_false, ite_true, ite_false] <;>
        unfold key_le at hk <;> rcases hk with hk | ⟨hk, hk'⟩ <;> omega
    · by_cases h1 : k1 ≤ parent <;>
        simp only [h1, ite_true, ite_false] at hk <;>
        unfold key_le at hk <;> rcases hk with hk | ⟨hk, hk'⟩ <;> omega
    · simp [spec_case_le]
    · simp [spec_case_le]

/-- C2 witness: on `mW` (parent step 1, cases: revert to 1, proceed to 3) the
amended theorem applies, giving two rows `1A`, `1B` in the claimed order. -/
theorem C2_witness :
    (generate_gateway_rows mW 1 "G" none).length = 2 ∧
    ((sorted_gateway_cases mW 1 "G").map (fun c => c.dest)).Pairwise
      (spec_case_le 1) := by
  have h := C2_case_rows_per_flow mW 1 "G"
    { type := GType.XOR, incoming := ["fg"], outgoing := ["fa", "fr"] } none
    (by decide) (by decide) (by decide)
    (by
      intro fid hfid
      fin_cases hfid
      · exact ⟨{ source := "G", target := "T3", name := "Approved" }, by decide,
          Or.inl ⟨{ label := "Ship", lane := "Ops", number := some 3,
                    incoming := ["fa"], outgoing := ["fe"] }, 3, by decide, by decide⟩⟩
      · exact ⟨{ source := "G", target := "T1", name := "Rejected" }, by decide,
          Or.inl ⟨{ label := "Check", lane := "Ops", number := some 1,
                    incoming := ["f0", "fr"], outgoing := ["fg"] }, 1, by decide, by decide⟩⟩)
  exact ⟨h.1, h.2.2⟩

/-- C3 counterexample: in the nested-gateway model `mC3n 1` with parent step 1,
the flow resolved through the nested gateway targets the parent step itself
(a self-loop), yet the generated case routing is "Proceed to Step 1" — the
code classifies it as proceed, not revert, contradicting the claim that a
target equal to the current step is always classified as revert. -/
theorem C3_counterexample :
    ((generate_gateway_rows (mC3n 1) 1 "G" none).head?.bind routing_of) =
      some "Proceed to Step 1" := by decide

/-- C3 amended: targets compared directly (gateway flow straight to a task) and
targets reached through an intermediate event use the inclusive threshold —
revert iff `target ≤ current`, so a self-loop is a revert; but targets resolved
through a nested gateway use the strict threshold — revert iff
`target < current`, so a self-loop through a nested gateway is classified as
proceed. -/
theorem C3_revert_thresholds (p t : Nat) :
    ((generate_gateway_rows (mC3d t) p "G" none).head?.bind routing_of) =
      some ((if t ≤ p then "Revert to" else "Proceed to") ++ " Step " ++ toString t) ∧
    ((generate_gateway_rows (mC3i t) p "G" none).head?.bind routing_of) =
      some ("Wait until Sig Then " ++ (if t ≤ p then "Revert to" else "Proceed to") ++
        " Step " ++ toString t) ∧
    ((generate_gateway_rows (mC3n t) p "G" none).head?.bind routing_of) =
      some ((if t < p then "Revert to" else "Proceed to") ++ " Step " ++ toString t) := by
  refine ⟨?_, ?_, ?_⟩
  · by_cases h : t ≤ p <;>
      simp [generate_gateway_rows, sorted_gateway_cases, gateway_cases, case_of_target,
        get_target_step_numbers, resolve_target, dget, List.lookup, mC3d, routing_of,
        case_routing_text, flow_doc_by_name, para, h]
  · by_cases h : t ≤ p <;>
      simp [generate_gateway_rows, sorted_gateway_cases, gateway_cases, case_of_target,
        intermediate_cases, get_target_step_numbers, resolve_target, dget, List.lookup, mC3i,
        routing_of, case_routing_text, flow_doc_by_name, para, h,
        show ("Sig" : String).isEmpty = false from rfl, ← String.append_assoc]
  · by_cases h : t < p <;>
      simp [generate_gateway_rows, sorted_gateway_cases, gateway_cases, case_of_target,
        nested_gateway_cases, get_target_step_numbers, resolve_target, dget, List.lookup, mC3n,
        routing_of, case_routing_text, flow_doc_by_name, para, h]

/-- C4 counterexample: in `mC4` task `T3` has two direct numbered-task
predecessors, no gateway anywhere (so no AND/OR join predecessor exists) and
no events (so no start-event trigger exists), yet the multi-input text
appears — produced by the fallback branch, which the claim's "if and only if
(a) or (b)" does not cover. -/
theorem C4_counterexample :
    detect_multi_input mC4 "T3" = some "Step Input: Step 1 and Step 2" ∧
    mC4.gateways = [] ∧ mC4.events = [] := by decide

/-- C4 amended: the multi-input text appears if and only if (a) the AND/OR-join
branch fires (a direct AND/OR gateway predecessor with more than one traced
step-number entry, counted with multiplicity), or (c) the fallback branch fires
(no AND/OR direct predecessor, no XOR involvement — direct or traced to a
split — the all-XOR test fails, and more than one step number is collected
from direct task predecessors or through gateway predecessors), or (b) both a
forward step source and a start-event trigger source are found by backward
tracing.  In particular, when all incoming edges trace back only to XOR splits,
the text appears exactly when (b) holds. -/
theorem C4_multi_input_iff (m : BPMNModel) (task_id : String) :
    (detect_multi_input m task_id).isSome =
      (multi_input_join_fires m task_id || multi_input_fallback_fires m task_id ||
        step_trigger_fires m task_id) := by
  have hstf : (detect_step_trigger_input m task_id).isSome = step_trigger_fires m task_id := by
    unfold detect_step_trigger_input step_trigger_fires
    cases h : dget m.tasks task_id with
    | none => rfl
    | some task =>
      by_cases h1 : task.incoming.isEmpty
      · simp [h1]
      · cases hn : task.number with
        | none => simp [h1, hn]
        | some k =>
          by_cases h2 : (step_trigger_sources m task_id).1.isEmpty <;>
            by_cases h3 : (step_trigger_sources m task_id).2.isEmpty <;>
            simp [h1, hn, h2, h3]
  unfold detect_multi_input multi_input_join_fires multi_input_fallback_fires
  cases h : dget m.tasks task_id with
  | none =>
    have hz : step_trigger_fires m task_id = false := by
      unfold step_trigger_fires
      rw [h]
    simp [hz]
  | some task =>
    by_cases h1 : task.incoming.isEmpty
    · have hz : step_trigger_fires m task_id = false := by
        unfold step_trigger_fires
        rw [h]
        simp [h1]
      simp [h1, hz]
    · by_cases h2 : (multi_join_sources m task.incoming).isEmpty
      · by_cases h3 : has_xor_src m task.incoming
        · simp [h1, h2, h3, hstf]
        · by_cases h4 : all_xor_splits m task.incoming
          · simp [h1, h2, h3, h4, hstf]
          · by_cases h5 : 1 < (fallback_scan m task.incoming).2.length
            · simp [h1, h2, h3, h4, h5, hstf]
            · simp [h1, h2, h3, h4, h5, hstf]
      · by_cases h5 : 1 < (multi_join_steps m (multi_join_sources m task.incoming)).length
        · simp [h1, h2, h5, hstf]
        · simp [h1, h2, h5, hstf]

/-- C5 counterexample: when the parse fails, `parse_bpmn_to_sop` does not
propagate a typed error — it returns an ordinary context whose `steps` list is
non-empty (a sentinel ERROR row), i.e. a step-record list is produced alongside
the failure, contradicting "no partial output". -/
theorem C5_counterexample :
    (parse_bpmn_to_sop (Except.error "syntax error: line 1") []).steps ≠ [] ∧
    (parse_bpmn_to_sop (Except.error "syntax error: line 1") []).process_name = "ERROR" := by
  decide

/-- C5 amended: on any failure (malformed XML or any exception during step
synthesis), `parse_bpmn_to_sop` catches the error and returns a fallback
context whose `steps` is exactly one non-gateway `'ERROR'` row carrying the
message, with `process_name` metadata defaulting to `'ERROR'`; on success the
context's `steps` is the generated row list.  No error propagates to the
caller. -/
theorem C5_error_fallback (e : String) (md : List (String × String)) (m : BPMNModel) :
    (parse_bpmn_to_sop (Except.error e) md).steps =
      [{ ref := "ERROR", is_gateway := false, sla := none, sla_group := none,
         raci := defaultRaci,
         paragraphs := [{ text := "Parse error: " ++ e, font_size := 11, bold := false,
                          alignment := "JUSTIFY" }] }] ∧
    (parse_bpmn_to_sop (Except.error e) md).process_name = mget md "process_name" "ERROR" ∧
    (parse_bpmn_to_sop (Except.ok m) md).steps = generate_sop_rows m :=
  ⟨rfl, rfl, rfl⟩

/-- C7 counterexample: forward target resolution does not treat an unnumbered
task as an intermediary — in `mC7f`, `T1`'s only outgoing flow reaches the
unnumbered task `U` (which itself resolves onward to step 2), yet `T1`'s
resolved target list is empty, so the flow is dropped rather than traced
through. -/
theorem C7_counterexample :
    get_target_step_numbers mC7f "T1" = [] ∧
    get_target_step_numbers mC7f "U" = [Target.task 2 ""] := by decide

/-- C7 amended: a task with no parseable step number produces no row of its own
(the non-gateway rows are exactly one per numbered task); backward tracing to a
split gateway passes through an unnumbered task exactly as through a numbered
one (in `mC7b` the trace from `U` reaches the split `G`); but forward target
resolution drops flows to unnumbered tasks entirely (in `mC7f` the numbered
task behind the intermediary is not reached). -/
theorem C7_unnumbered_task_participation (m : BPMNModel) :
    ((generate_sop_rows m).filter (fun r => !r.is_gateway)).length =
      (m.tasks.filter (fun p => p.2.number.isSome)).length ∧
    trace_back_to_split_gateway mC7b (sufficient_fuel mC7b) "U" [] = some ("G", GType.XOR) ∧
    get_target_step_numbers mC7f "T1" = [] := by
  refine ⟨?_, by decide, by decide⟩
  have h := congrArg List.length (refs_nonGateway m)
  simp only [List.length_map] at h
  rw [h]
  exact (List.perm_insertionSort _ _).length_eq

/-- C8: a numbered task whose sole resolved target is an AND/OR join gateway
(more than one incoming flow) whose own targets include an end event and no
task receives, on its own row, the sentence
"Wait until step (others) completed then Process Ends ((name))" listing the
sorted step numbers of the other branch tasks feeding the join — and no
gateway-case rows nor ordinary routing are produced for it. -/
theorem C8_parallel_join_end (m : BPMNModel) (tid fname enm : String) (t : Task)
    (n : Nat) (gid : String) (gw : Gateway)
    (hn : t.number = some n)
    (htg : get_target_step_numbers m tid = [Target.gateway gid fname])
    (hgw : dget m.gateways gid = some gw)
    (htype : gw.type = GType.AND ∨ gw.type = GType.OR)
    (hjoin : 1 < gw.incoming.length)
    (hend : first_end_name (get_target_step_numbers m gid) = some enm)
    (hnotask : has_task_target (get_target_step_numbers m gid) = false)
    (hother : join_other_steps m tid gw ≠ []) :
    (process_task m tid t).length = 1 ∧
    ∀ r ∈ process_task m tid t, r.is_gateway = false ∧ r.ref = toString n ∧
      r.paragraphs.getLast? = some (para ("Wait until step " ++
        String.intercalate " and step " ((dedup_sorted (join_other_steps m tid gw)).map toString)
        ++ " completed then Process Ends (" ++ enm ++ ")") 12 true) := by
  have hscan : ∀ seen, join_end_scan m tid [Target.gateway gid fname] seen =
      (if seen.contains gid then JoinEndResult.fellThrough else
        JoinEndResult.handled ("Wait until step " ++
        String.intercalate " and step " ((dedup_sorted (join_other_steps m tid gw)).map toString)
        ++ " completed then Process Ends (" ++ enm ++ ")")) := by
    intro seen
    by_cases hs : seen.contains gid
    · simp only [join_end_scan, hs, if_true]
    · simp only [join_end_scan, hs, if_false, hgw]
      rcases htype with h | h <;>
        simp [h, hjoin, hend, hnotask, hother, join_end_scan]
  have hroute : task_routing m tid n
      (match t.lane_id with
       | some lid => (dget m.lane_raci lid).getD defaultRaci
       | none => defaultRaci) (get_target_step_numbers m tid) =
      ([emptyPara, para ("Wait until step " ++
        String.intercalate " and step " ((dedup_sorted (join_other_steps m tid gw)).map toString)
        ++ " completed then Process Ends (" ++ enm ++ ")") 12 true], []) := by
    rw [htg]
    unfold task_routing
    rw [hscan []]
    simp
  unfold process_task
  rw [hn]
  dsimp only
  rw [hroute]
  refine ⟨rfl, ?_⟩
  intro r hr
  simp only [List.mem_singleton] at hr
  subst hr
  refine ⟨rfl, rfl, ?_⟩
  simp only [← List.cons_append, ← List.append_assoc]
  rw [List.getLast?_append]
  simp

/-- C8 witness: in `mC8`, task `T2` (step 2) feeds the AND-join `GJ` that leads
directly to end "Done"; its single generated row ends with
"Wait until step 3 completed then Process Ends (Done)". -/
theorem C8_witness :
    (process_task mC8 "T2" tC8).length = 1 ∧
    ∀ r ∈ process_task mC8 "T2" tC8, r.paragraphs.getLast? =
      some (para "Wait until step 3 completed then Process Ends (Done)" 12 true) := by
  have h := C8_parallel_join_end mC8 "T2" "" "Done" tC8 2 "GJ" gwC8
    (by decide) (by decide) (by decide) (Or.inl (by decide)) (by decide)
    (by decide) (by decide) (by decide)
  refine ⟨h.1, fun r hr => ?_⟩
  have h2 := (h.2 r hr).2.2
  have h3 : ("Wait until step " ++
      String.intercalate " and step " ((dedup_sorted (join_other_steps mC8 "T2" gwC8)).map
        toString) ++ " completed then Process Ends (" ++ "Done" ++ ")") =
      "Wait until step 3 completed then Process Ends (Done)" := by decide
  rw [h3] at h2
  exact h2

/-- Specification of `takeWhile`: its length is bounded, every element inside
satisfies the predicate, and the first element past it (if any) fails it. -/
theorem takeWhile_spec {α : Type} (p : α → Bool) (l : List α) :
    (l.takeWhile p).length ≤ l.length ∧
    (∀ k, k < (l.takeWhile p).length → ∃ x, l[k]? = some x ∧ p x = true) ∧
    (∀ x, l[(l.takeWhile p).length]? = some x → p x = false) := by
  induction l with
  | nil => simp
  | cons a l ih =>
    obtain ⟨ih1, ih2, ih3⟩ := ih
    by_cases hp : p a
    · refine ⟨?_, ?_, ?_⟩
      · simp only [List.takeWhile_cons, hp, if_true, List.length_cons]
        omega
      · intro k hk
        simp only [List.takeWhile_cons, hp, if_true, List.length_cons] at hk
        cases k with
        | zero => exact ⟨a, by simp, hp⟩
        | succ k2 =>
          obtain ⟨x, hx, hpx⟩ := ih2 k2 (by omega)
          exact ⟨x, by simpa [List.getElem?_cons_succ] using hx, hpx⟩
      · intro x hx
        simp only [List.takeWhile_cons, hp, if_true, List.length_cons] at hx
        rw [List.getElem?_cons_succ] at hx
        exact ih3 x hx
    · refine ⟨by simp [List.takeWhile_cons, hp], ?_, ?_⟩
      · intro k hk
        simp [List.takeWhile_cons, hp] at hk
      · intro x hx
        have hlen : ((a :: l).takeWhile p).length = 0 := by
          simp [List.takeWhile_cons, hp]
        rw [hlen, List.getElem?_cons_zero] at hx
        injection hx with h2
        subst h2
        simpa using hp

/-- The gateway run starting at `j` fits inside the row list. -/
theorem gw_run_len_le (steps : List Row) (j : Nat) :
    gw_run_len steps j ≤ steps.length - j := by
  have h := (takeWhile_spec (fun s : Row => s.is_gateway) (steps.drop j)).1
  unfold gw_run_len
  simpa [List.length_drop] using h

/-- Every row inside the gateway run starting at `j` is a gateway-case row. -/
theorem gw_run_mem (steps : List Row) (j i : Nat) (h1 : j ≤ i)
    (h2 : i < j + gw_run_len steps j) :
    ∃ row, steps[i]? = some row ∧ row.is_gateway = true := by
  obtain ⟨x, hx, hp⟩ := (takeWhile_spec (fun s : Row => s.is_gateway) (steps.drop j)).2.1
    (i - j) (by unfold gw_run_len at h2; omega)
  rw [List.getElem?_drop] at hx
  have he : j + (i - j) = i := by omega
  rw [he] at hx
  exact ⟨x, hx, hp⟩

/-- The row just after the gateway run starting at `j` (if any) is not a
gateway-case row. -/
theorem gw_run_boundary (steps : List Row) (j : Nat) :
    ∀ row, steps[j + gw_run_len steps j]? = some row → row.is_gateway = false := by
  intro row h
  refine (takeWhile_spec (fun s : Row => s.is_gateway) (steps.drop j)).2.2 row ?_
  rw [List.getElem?_drop]
  exact h

/-- The group loop consumes at most the whole suffix. -/
theorem group_consume_le (g : String) (l : List Row) : group_consume g l ≤ l.length := by
  induction l using group_consume.induct g with
  | case1 => simp [group_consume]
  | case2 r rest hg gws ih =>
    have hgws : gws = (rest.takeWhile (fun s => s.is_gateway)).length := rfl
    rw [group_consume]
    simp only [hg, if_true]
    have htw := (takeWhile_spec (fun s : Row => s.is_gateway) rest).1
    rw [hgws] at ih
    simp only [List.length_drop] at ih
    simp only [List.length_cons]
    omega
  | case3 r rest hg =>
    rw [group_consume]
    simp [hg]

/-- Every row consumed by the group loop carries the group id or is a
gateway-case row. -/
theorem group_consume_mem (g : String) (l : List Row) :
    ∀ k, k < group_consume g l →
      ∃ x, l[k]? = some x ∧ (x.is_gateway = true ∨ x.sla_group = some g) := by
  induction l using group_consume.induct g with
  | case1 => simp [group_consume]
  | case2 r rest hg gws ih =>
    have hgws : gws = (rest.takeWhile (fun s => s.is_gateway)).length := rfl
    rw [hgws] at ih
    intro k hk
    rw [group_consume] at hk
    simp only [hg, if_true] at hk
    cases k with
    | zero => exact ⟨r, by simp, Or.inr hg⟩
    | succ k2 =>
      rw [List.getElem?_cons_succ]
      by_cases hk2 : k2 < (rest.takeWhile (fun s => s.is_gateway)).length
      · obtain ⟨x, hx, hpx⟩ :=
          (takeWhile_spec (fun s : Row => s.is_gateway) rest).2.1 k2 hk2
        exact ⟨x, hx, Or.inl hpx⟩
      · obtain ⟨x, hx, hpx⟩ := ih (k2 - (rest.takeWhile (fun s => s.is_gateway)).length)
          (by omega)
        rw [List.getElem?_drop] at hx
        have he : (rest.takeWhile (fun s => s.is_gateway)).length +
            (k2 - (rest.takeWhile (fun s => s.is_gateway)).length) = k2 := by omega
        rw [he] at hx
        exact ⟨x, hx, hpx⟩
  | case3 r rest hg =>
    intro k hk
    rw [group_consume] at hk
    simp [hg] at hk

/-- If the suffix starts with a non-gateway row (or is empty), the row just
after the group loop's consumption (if any) is not a gateway-case row. -/
theorem group_consume_boundary (g : String) (l : List Row)
    (hhead : ∀ x, l[0]? = some x → x.is_gateway = false) :
    ∀ x, l[group_consume g l]? = some x → x.is_gateway = false := by
  induction l using group_consume.induct g with
  | case1 =>
    intro x hx
    simp at hx
  | case2 r rest hg gws ih =>
    have hgws : gws = (rest.takeWhile (fun s => s.is_gateway)).length := rfl
    rw [hgws] at ih
    intro x hx
    rw [group_consume] at hx
    simp only [hg, if_true] at hx
    have he : 1 + (rest.takeWhile (fun s => s.is_gateway)).length +
        group_consume g (rest.drop (rest.takeWhile (fun s => s.is_gateway)).length) =
        ((rest.takeWhile (fun s => s.is_gateway)).length +
          group_consume g (rest.drop (rest.takeWhile (fun s => s.is_gateway)).length)) + 1 := by
      omega
    rw [he, List.getElem?_cons_succ] at hx
    rw [show (rest.takeWhile (fun s => s.is_gateway)).length +
        group_consume g (rest.drop (rest.takeWhile (fun s => s.is_gateway)).length) =
        (rest.takeWhile (fun s => s.is_gateway)).length +
        group_consume g (rest.drop (rest.takeWhile (fun s => s.is_gateway)).length) from rfl]
      at hx
    have hx2 : (rest.drop (rest.takeWhile (fun s => s.is_gateway)).length)[group_consume g
        (rest.drop (rest.takeWhile (fun s => s.is_gateway)).length)]? = some x := by
      rw [List.getElem?_drop]
      exact hx
    refine ih ?_ x hx2
    intro y hy
    rw [List.getElem?_drop] at hy
    exact (takeWhile_spec (fun s : Row => s.is_gateway) rest).2.2 y (by simpa using hy)
  | case3 r rest hg =>
    intro x hx
    rw [group_consume] at hx
    simp only [hg, if_false] at hx
    exact hhead x (by simpa using hx)

/-- `group_scan` never moves backward. -/
theorem group_scan_ge (steps : List Row) (g : String) (j : Nat) : j ≤ group_scan steps g j := by
  unfold group_scan
  omega

/-- `group_scan` stays inside the row list when started inside it. -/
theorem group_scan_le_len (steps : List Row) (g : String) (j : Nat) (h : j ≤ steps.length) :
    group_scan steps g j ≤ steps.length := by
  unfold group_scan
  have := group_consume_le g (steps.drop j)
  simp only [List.length_drop] at this
  omega

/-- Rows passed over by `group_scan` carry the group id or are gateway rows. -/
theorem group_scan_mem (steps : List Row) (g : String) (j i : Nat) (h1 : j ≤ i)
    (h2 : i < group_scan steps g j) :
    ∃ row, steps[i]? = some row ∧ (row.is_gateway = true ∨ row.sla_group = some g) := by
  obtain ⟨x, hx, hpx⟩ := group_consume_mem g (steps.drop j) (i - j)
    (by unfold group_scan at h2; omega)
  rw [List.getElem?_drop] at hx
  have he : j + (i - j) = i := by omega
  rw [he] at hx
  exact ⟨x, hx, hpx⟩

/-- If the row at `j` (if any) is not a gateway row, neither is the row where
`group_scan` stops (if any). -/
theorem group_scan_boundary (steps : List Row) (g : String) (j : Nat)
    (hhead : ∀ row, steps[j]? = some row → row.is_gateway = false) :
    ∀ row, steps[group_scan steps g j]? = some row → row.is_gateway = false := by
  intro row h
  refine group_consume_boundary g (steps.drop j) ?_ row ?_
  · intro y hy
    rw [List.getElem?_drop] at hy
    exact hhead y (by simpa using hy)
  · rw [List.getElem?_drop]
    exact h

/-- Unfolding of the SLA scan at an in-bounds index whose row has a truthy own
SLA and no truthy SLA group (own-SLA branch, app.py lines 333-340). -/
theorem sla_merges_from_own (steps : List Row) (idx : Nat) (h : idx < steps.length)
    (hc : (truthyS (steps.get ⟨idx, h⟩).sla &&
      !truthyS (steps.get ⟨idx, h⟩).sla_group) = true) :
    sla_merges_from steps idx =
      (idx, idx + 1 + gw_run_len steps (idx + 1) - 1, (steps.get ⟨idx, h⟩).sla) ::
        sla_merges_from steps (idx + 1 + gw_run_len steps (idx + 1)) := by
  rw [sla_merges_from]
  simp only [dif_pos h, hc, if_true]

/-- Unfolding of the SLA scan at an in-bounds index whose row has a truthy SLA
group (group branch, app.py lines 341-356). -/
theorem sla_merges_from_group (steps : List Row) (idx : Nat) (h : idx < steps.length)
    (hg : truthyS (steps.get ⟨idx, h⟩).sla_group = true) :
    sla_merges_from steps idx =
      (idx, group_scan steps ((steps.get ⟨idx, h⟩).sla_group.getD "")
          (idx + 1 + gw_run_len steps (idx + 1)) - 1, (steps.get ⟨idx, h⟩).sla) ::
        sla_merges_from steps (group_scan steps ((steps.get ⟨idx, h⟩).sla_group.getD "")
          (idx + 1 + gw_run_len steps (idx + 1))) := by
  rw [sla_merges_from]
  simp only [dif_pos h, hg, Bool.not_true, Bool.and_false, Bool.false_eq_true,
    if_false, if_true]

/-- Unfolding of the SLA scan at an in-bounds index whose row has neither a
truthy own SLA nor a truthy SLA group (skip branch, app.py lines 357-361). -/
theorem sla_merges_from_skip (steps : List Row) (idx : Nat) (h : idx < steps.length)
    (hc : (truthyS (steps.get ⟨idx, h⟩).sla &&
      !truthyS (steps.get ⟨idx, h⟩).sla_group) = false)
    (hg : truthyS (steps.get ⟨idx, h⟩).sla_group = false) :
    sla_merges_from steps idx =
      sla_merges_from steps (idx + 1 + gw_run_len steps (idx + 1)) := by
  have hs : truthyS (steps.get ⟨idx, h⟩).sla = false := by
    rw [hg] at hc
    simpa using hc
  rw [sla_merges_from]
  simp only [dif_pos h, hs, hg, Bool.not_false, Bool.and_true, Bool.false_eq_true, if_false]

/-- The SLA scan emits nothing once the index leaves the row list. -/
theorem sla_merges_from_end (steps : List Row) (idx : Nat) (h : ¬idx < steps.length) :
    sla_merges_from steps idx = [] := by
  rw [sla_merges_from]
  simp only [dif_neg h]

/-- The row at which the group loop stops (if any) does not carry the group id. -/
theorem group_consume_stop (g : String) (l : List Row) :
    ∀ x, l[group_consume g l]? = some x → ¬x.sla_group = some g := by
  induction l using group_consume.induct g with
  | case1 =>
    intro x hx
    simp at hx
  | case2 r rest hg gws ih =>
    have hgws : gws = (rest.takeWhile (fun s => s.is_gateway)).length := rfl
    rw [hgws] at ih
    intro x hx
    rw [group_consume] at hx
    simp only [hg, if_true] at hx
    have he : 1 + (rest.takeWhile (fun s => s.is_gateway)).length +
        group_consume g (rest.drop (rest.takeWhile (fun s => s.is_gateway)).length) =
        ((rest.takeWhile (fun s => s.is_gateway)).length +
          group_consume g (rest.drop (rest.takeWhile (fun s => s.is_gateway)).length)) + 1 := by
      omega
    rw [he, List.getElem?_cons_succ] at hx
    refine ih x ?_
    rw [List.getElem?_drop]
    exact hx
  | case3 r rest hg =>
    intro x hx
    rw [group_consume] at hx
    simp only [hg, if_false] at hx
    simp only [List.getElem?_cons_zero, Option.some.injEq] at hx
    subst hx
    exact hg

/-- The row at which `group_scan` stops (if any) does not carry the group id. -/
theorem group_scan_stop (steps : List Row) (g : String) (j : Nat) :
    ∀ row, steps[group_scan steps g j]? = some row → ¬row.sla_group = some g := by
  intro row h
  refine group_consume_stop g (steps.drop j) row ?_
  rw [List.getElem?_drop]
  exact h

/-- A truthy optional string is a `some` of a non-empty string. -/
theorem truthyS_some (o : Option String) (h : truthyS o = true) :
    ∃ s, o = some s ∧ s.isEmpty = false := by
  cases o with
  | none => simp [truthyS] at h
  | some s => exact ⟨s, rfl, by simpa [truthyS] using h⟩

/-- Optional indexing at an in-bounds index returns the `get` of that index. -/
theorem getElem?_eq_get_of_lt {α : Type} (l : List α) (i : Nat) (h : i < l.length) :
    l[i]? = some (l.get ⟨i, h⟩) := by
  rw [List.getElem?_eq_getElem h]
  rfl

/-- Invariant of the SLA merge-range scan from an arbitrary start index:
ranges start at or after the index and fit the row list, they are ordered and
pairwise disjoint, each range's start row determines its branch (own-SLA end
formula or group-scan end formula), every later own-SLA task row starts a
range, and every later plain task row lies outside all ranges. -/
theorem sla_scan_master (steps : List Row) (idx : Nat) :
    (∀ r ∈ sla_merges_from steps idx, idx ≤ r.1 ∧ r.1 ≤ r.2.1 ∧ r.2.1 < steps.length) ∧
    (sla_merges_from steps idx).Pairwise (fun a b => a.2.1 < b.1) ∧
    (∀ r ∈ sla_merges_from steps idx, ∃ row, steps[r.1]? = some row ∧ r.2.2 = row.sla ∧
      (truthyS row.sla = true ∧ truthyS row.sla_group = false ∧
        r.2.1 = r.1 + gw_run_len steps (r.1 + 1) ∨
       truthyS row.sla_group = true ∧
        r.2.1 + 1 = group_scan steps (row.sla_group.getD "")
          (r.1 + 1 + gw_run_len steps (r.1 + 1)))) ∧
    (∀ i row, idx ≤ i → steps[i]? = some row → row.is_gateway = false →
      truthyS row.sla = true → truthyS row.sla_group = false →
      ∃ e, (i, e, row.sla) ∈ sla_merges_from steps idx) ∧
    (∀ i row, idx ≤ i → steps[i]? = some row → row.is_gateway = false →
      truthyS row.sla = false → truthyS row.sla_group = false →
      ∀ r ∈ sla_merges_from steps idx, i < r.1 ∨ r.2.1 < i) := by
  induction idx using sla_merges_from.induct steps with
  | case1 x h st hc jf ih =>
    have hst : st = steps.get ⟨x, h⟩ := rfl
    have hjf : jf = x + 1 + gw_run_len steps (x + 1) := rfl
    rw [hst] at hc
    rw [hjf] at ih
    obtain ⟨ihA, ihD, ihB, ihE, ihF⟩ := ih
    have hgwle : gw_run_len steps (x + 1) ≤ steps.length - (x + 1) := gw_run_len_le steps (x + 1)
    have heq := sla_merges_from_own steps x h hc
    have hc' := hc
    simp only [Bool.and_eq_true, Bool.not_eq_true'] at hc'
    obtain ⟨hsla, hgrp⟩ := hc'
    rw [heq]
    refine ⟨?_, ?_, ?_, ?_, ?_⟩
    · intro r hr
      rcases List.mem_cons.mp hr with hr0 | hr1
      · subst hr0
        dsimp only
        omega
      · have := ihA r hr1
        omega
    · refine List.Pairwise.cons ?_ ihD
      intro b hb
      have := ihA b hb
      dsimp only
      omega
    · intro r hr
      rcases List.mem_cons.mp hr with hr0 | hr1
      · subst hr0
        refine ⟨steps.get ⟨x, h⟩, getElem?_eq_get_of_lt steps x h, rfl, Or.inl ⟨hsla, hgrp, ?_⟩⟩
        dsimp only
        omega
      · exact ihB r hr1
    · intro i row hge hsome hngw hsla2 hgrp2
      by_cases hix : i = x
      · subst hix
        have hrow : steps.get ⟨i, h⟩ = row := by
          have h2 := (getElem?_eq_get_of_lt steps i h).symm.trans hsome
          injection h2
        refine ⟨i + 1 + gw_run_len steps (i + 1) - 1, ?_⟩
        rw [← hrow]
        exact List.mem_cons_self _ _
      · by_cases hjfle : x + 1 + gw_run_len steps (x + 1) ≤ i
        · obtain ⟨e, he⟩ := ihE i row hjfle hsome hngw hsla2 hgrp2
          exact ⟨e, List.mem_cons_of_mem _ he⟩
        · exfalso
          obtain ⟨row2, hrow2, hg2⟩ := gw_run_mem steps (x + 1) i (by omega) (by omega)
          rw [hsome] at hrow2
          injection hrow2 with hrow2
          rw [← hrow2] at hg2
          rw [hngw] at hg2
          exact absurd hg2 (by simp)
    · intro i row hge hsome hngw hsla2 hgrp2 r hr
      rcases List.mem_cons.mp hr with hr0 | hr1
      · subst hr0
        dsimp only
        by_cases hix : i = x
        · exfalso
          subst hix
          have hrow : steps.get ⟨i, h⟩ = row := by
            have h2 := (getElem?_eq_get_of_lt steps i h).symm.trans hsome
            injection h2
          rw [hrow] at hsla
          rw [hsla] at hsla2
          exact absurd hsla2 (by simp)
        · by_cases hile : i ≤ x + gw_run_len steps (x + 1)
          · exfalso
            obtain ⟨row2, hrow2, hg2⟩ := gw_run_mem steps (x + 1) i (by omega) (by omega)
            rw [hsome] at hrow2
            injection hrow2 with hrow2
            rw [← hrow2] at hg2
            rw [hngw] at hg2
            exact absurd hg2 (by simp)
          · omega
      · by_cases hjfle : x + 1 + gw_run_len steps (x + 1) ≤ i
        · exact ihF i row hjfle hsome hngw hsla2 hgrp2 r hr1
        · have := ihA r hr1
          omega
  | case2 x h st hc hg g jf ih =>
    have hst : st = steps.get ⟨x, h⟩ := rfl
    rw [hst] at hg
    have hgd : g = (steps.get ⟨x, h⟩).sla_group.getD "" := rfl
    have hjf : jf = group_scan steps ((steps.get ⟨x, h⟩).sla_group.getD "")
        (x + 1 + gw_run_len steps (x + 1)) := by
      rw [show jf = group_scan steps g (x + 1 + gw_run_len steps (x + 1)) from rfl, hgd]
    rw [hjf] at ih
    obtain ⟨ihA, ihD, ihB, ihE, ihF⟩ := ih
    have hgwle : gw_run_len steps (x + 1) ≤ steps.length - (x + 1) := gw_run_len_le steps (x + 1)
    have hJge : x + 1 + gw_run_len steps (x + 1) ≤
        group_scan steps ((steps.get ⟨x, h⟩).sla_group.getD "")
          (x + 1 + gw_run_len steps (x + 1)) := group_scan_ge steps _ _
    have hJle : group_scan steps ((steps.get ⟨x, h⟩).sla_group.getD "")
        (x + 1 + gw_run_len steps (x + 1)) ≤ steps.length :=
      group_scan_le_len steps _ _ (by omega)
    obtain ⟨gs, hgs, hgsne⟩ := truthyS_some _ hg
    have heq := sla_merges_from_group steps x h hg
    rw [heq]
    refine ⟨?_, ?_, ?_, ?_, ?_⟩
    · intro r hr
      rcases List.mem_cons.mp hr with hr0 | hr1
      · subst hr0
        dsimp only
        omega
      · have := ihA r hr1
        omega
    · refine List.Pairwise.cons ?_ ihD
      intro b hb
      have := ihA b hb
      dsimp only
      omega
    · intro r hr
      rcases List.mem_cons.mp hr with hr0 | hr1
      · subst hr0
        refine ⟨steps.get ⟨x, h⟩, getElem?_eq_get_of_lt steps x h, rfl, Or.inr ⟨hg, ?_⟩⟩
        dsimp only
        omega
      · exact ihB r hr1
    · intro i row hge hsome hngw hsla2 hgrp2
      by_cases hix : i = x
      · exfalso
        subst hix
        have hrow : steps.get ⟨i, h⟩ = row := by
          have h2 := (getElem?_eq_get_of_lt steps i h).symm.trans hsome
          injection h2
        rw [hrow] at hg
        rw [hg] at hgrp2
        exact absurd hgrp2 (by simp)
      · by_cases hjfle : group_scan steps ((steps.get ⟨x, h⟩).sla_group.getD "")
            (x + 1 + gw_run_len steps (x + 1)) ≤ i
        · obtain ⟨e, he⟩ := ihE i row hjfle hsome hngw hsla2 hgrp2
          exact ⟨e, List.mem_cons_of_mem _ he⟩
        · exfalso
          by_cases hile : i < x + 1 + gw_run_len steps (x + 1)
          · obtain ⟨row2, hrow2, hg2⟩ := gw_run_mem steps (x + 1) i (by omega) (by omega)
            rw [hsome] at hrow2
            injection hrow2 with hrow2
            rw [← hrow2] at hg2
            rw [hngw] at hg2
            exact absurd hg2 (by simp)
          · obtain ⟨row2, hrow2, hg2⟩ := group_scan_mem steps
              ((steps.get ⟨x, h⟩).sla_group.getD "") (x + 1 + gw_run_len steps (x + 1)) i
              (by omega) (by omega)
            rw [hsome] at hrow2
            injection hrow2 with hrow2
            rw [← hrow2] at hg2
            rcases hg2 with hg2 | hg2
            · rw [hngw] at hg2
              exact absurd hg2 (by simp)
            · rw [hg2] at hgrp2
              rw [hgs] at hgrp2
              simp only [Option.getD_some] at hgrp2
              rw [truthyS] at hgrp2
              rw [hgsne] at hgrp2
              exact absurd hgrp2 (by simp)
    · intro i row hge hsome hngw hsla2 hgrp2 r hr
      rcases List.mem_cons.mp hr with hr0 | hr1
      · subst hr0
        dsimp only
        by_cases hix : i = x
        · exfalso
          subst hix
          have hrow : steps.get ⟨i, h⟩ = row := by
            have h2 := (getElem?_eq_get_of_lt steps i h).symm.trans hsome
            injection h2
          rw [hrow] at hg
          rw [hg] at hgrp2
          exact absurd hgrp2 (by simp)
        · by_cases hiJ : i < group_scan steps ((steps.get ⟨x, h⟩).sla_group.getD "")
              (x + 1 + gw_run_len steps (x + 1))
          · exfalso
            by_cases hile : i < x + 1 + gw_run_len steps (x + 1)
            · obtain ⟨row2, hrow2, hg2⟩ := gw_run_mem steps (x + 1) i (by omega) (by omega)
              rw [hsome] at hrow2
              injection hrow2 with hrow2
              rw [← hrow2] at hg2
              rw [hngw] at hg2
              exact absurd hg2 (by simp)
            · obtain ⟨row2, hrow2, hg2⟩ := group_scan_mem steps
                ((steps.get ⟨x, h⟩).sla_group.getD "") (x + 1 + gw_run_len steps (x + 1)) i
                (by omega) (by omega)
              rw [hsome] at hrow2
              injection hrow2 with hrow2
              rw [← hrow2] at hg2
              rcases hg2 with hg2 | hg2
              · rw [hngw] at hg2
                exact absurd hg2 (by simp)
              · rw [hg2] at hgrp2
                rw [hgs] at hgrp2
                simp only [Option.getD_some] at hgrp2
                rw [truthyS] at hgrp2
                rw [hgsne] at hgrp2
                exact absurd hgrp2 (by simp)
          · omega
      · by_cases hjfle : group_scan steps ((steps.get ⟨x, h⟩).sla_group.getD "")
            (x + 1 + gw_run_len steps (x + 1)) ≤ i
        · exact ihF i row hjfle hsome hngw hsla2 hgrp2 r hr1
        · have := ihA r hr1
          omega
  | case3 x h st hc hg ih =>
    have hst : st = steps.get ⟨x, h⟩ := rfl
    rw [hst] at hc hg
    have hg2 : truthyS (steps.get ⟨x, h⟩).sla_group = false := by
      cases hb : truthyS (steps.get ⟨x, h⟩).sla_group
      · rfl
      · exact absurd hb hg
    have hsla : truthyS (steps.get ⟨x, h⟩).sla = false := by
      cases hb : truthyS (steps.get ⟨x, h⟩).sla
      · rfl
      · exfalso
        refine hc ?_
        rw [hb, hg2]
        rfl
    have hc2 : (truthyS (steps.get ⟨x, h⟩).sla &&
        !truthyS (steps.get ⟨x, h⟩).sla_group) = false := by
      rw [hsla]
      rfl
    obtain ⟨ihA, ihD, ihB, ihE, ihF⟩ := ih
    have hgwle : gw_run_len steps (x + 1) ≤ steps.length - (x + 1) := gw_run_len_le steps (x + 1)
    have heq := sla_merges_from_skip steps x h hc2 hg2
    rw [heq]
    refine ⟨?_, ihD, ihB, ?_, ?_⟩
    · intro r hr
      have := ihA r hr
      omega
    · intro i row hge hsome hngw hsla2 hgrp2
      by_cases hix : i = x
      · exfalso
        subst hix
        have hrow : steps.get ⟨i, h⟩ = row := by
          have h2 := (getElem?_eq_get_of_lt steps i h).symm.trans hsome
          injection h2
        rw [hrow] at hsla
        rw [hsla] at hsla2
        exact absurd hsla2 (by simp)
      · by_cases hjfle : x + 1 + gw_run_len steps (x + 1) ≤ i
        · exact ihE i row hjfle hsome hngw hsla2 hgrp2
        · exfalso
          obtain ⟨row2, hrow2, hg3⟩ := gw_run_mem steps (x + 1) i (by omega) (by omega)
          rw [hsome] at hrow2
          injection hrow2 with hrow2
          rw [← hrow2] at hg3
          rw [hngw] at hg3
          exact absurd hg3 (by simp)
    · intro i row hge hsome hngw hsla2 hgrp2 r hr
      by_cases hjfle : x + 1 + gw_run_len steps (x + 1) ≤ i
      · exact ihF i row hjfle hsome hngw hsla2 hgrp2 r hr
      · have := ihA r hr
        omega
  | case4 x hx =>
    rw [sla_merges_from_end steps x hx]
    refine ⟨by simp, by simp, by simp, ?_, by simp⟩
    intro i row hge hsome hngw hsla2 hgrp2
    exfalso
    have hnone : steps[i]? = none := List.getElem?_eq_none (by omega)
    rw [hnone] at hsome
    exact absurd hsome (by simp)

/-- C6: for every ordered list of step records, the SLA merge ranges computed
by the linear scan of `create_word_doc_from_template` are pairwise
non-overlapping, ordered, in-bounds index intervals; a task row carrying a
truthy own SLA and no SLA group starts the range that absorbs exactly the
immediately following run of gateway-case rows; a range whose start row
carries a truthy SLA group contains beyond its start only gateway-case rows
and rows sharing that group id; the row just past any range is not a
gateway-case row; and task rows with neither SLA nor SLA group lie outside
every range. -/
theorem C6_sla_merge_ranges (steps : List Row) :
    ((sla_merges steps).Pairwise (fun a b => a.2.1 < b.1) ∧
     ∀ r ∈ sla_merges steps, r.1 ≤ r.2.1 ∧ r.2.1 < steps.length) ∧
    (∀ i row, steps[i]? = some row → row.is_gateway = false →
      truthyS row.sla = true → truthyS row.sla_group = false →
      (i, i + gw_run_len steps (i + 1), row.sla) ∈ sla_merges steps ∧
      ∀ k, i < k → k ≤ i + gw_run_len steps (i + 1) →
        ∃ row2, steps[k]? = some row2 ∧ row2.is_gateway = true) ∧
    (∀ r ∈ sla_merges steps, ∀ row, steps[r.1]? = some row →
      truthyS row.sla_group = true →
      ∀ k, r.1 < k → k ≤ r.2.1 →
        ∃ row2, steps[k]? = some row2 ∧
          (row2.is_gateway = true ∨ row2.sla_group = row.sla_group)) ∧
    (∀ r ∈ sla_merges steps, ∀ row, steps[r.2.1 + 1]? = some row →
      row.is_gateway = false) ∧
    (∀ i row, steps[i]? = some row → row.is_gateway = false →
      truthyS row.sla = false → truthyS row.sla_group = false →
      ∀ r ∈ sla_merges steps, i < r.1 ∨ r.2.1 < i) := by
  obtain ⟨mA, mD, mB, mE, mF⟩ := sla_scan_master steps 0
  refine ⟨⟨mD, ?_⟩, ?_, ?_, ?_, ?_⟩
  · intro r hr
    have := mA r hr
    exact ⟨this.2.1, this.2.2⟩
  · intro i row hsome hngw hsla hgrp
    obtain ⟨e, he⟩ := mE i row (Nat.zero_le i) hsome hngw hsla hgrp
    obtain ⟨row', hsome', hsla', hdisj⟩ := mB _ he
    dsimp only at hsome' hsla' hdisj
    have hrow : row = row' := by
      rw [hsome] at hsome'
      injection hsome'
    subst hrow
    rcases hdisj with ⟨_, _, hend⟩ | ⟨hgt, _⟩
    · constructor
      · rw [show i + gw_run_len steps (i + 1) = e from by omega]
        exact he
      · intro k hk1 hk2
        exact gw_run_mem steps (i + 1) k (by omega) (by omega)
    · rw [hgt] at hgrp
      exact absurd hgrp (by simp)
  · intro r hr row hsome hg
    obtain ⟨row', hsome', hsla', hdisj⟩ := mB r hr
    have hrow : row = row' := by
      rw [hsome] at hsome'
      injection hsome'
    subst hrow
    rcases hdisj with ⟨_, hgf, _⟩ | ⟨_, hscan⟩
    · rw [hgf] at hg
      exact absurd hg (by simp)
    · intro k hk1 hk2
      by_cases hkgw : k < r.1 + 1 + gw_run_len steps (r.1 + 1)
      · obtain ⟨row2, h2, hg2⟩ := gw_run_mem steps (r.1 + 1) k (by omega) (by omega)
        exact ⟨row2, h2, Or.inl hg2⟩
      · have hkJ : k < group_scan steps (row.sla_group.getD "")
            (r.1 + 1 + gw_run_len steps (r.1 + 1)) := by omega
        obtain ⟨row2, h2, hg2⟩ := group_scan_mem steps (row.sla_group.getD "")
          (r.1 + 1 + gw_run_len steps (r.1 + 1)) k (by omega) hkJ
        rcases hg2 with hg2 | hg2
        · exact ⟨row2, h2, Or.inl hg2⟩
        · obtain ⟨s, hs, _⟩ := truthyS_some _ hg
          refine ⟨row2, h2, Or.inr ?_⟩
          rw [hg2, hs]
          simp
  · intro r hr row hsome
    obtain ⟨row', hsome', hsla', hdisj⟩ := mB r hr
    rcases hdisj with ⟨_, _, hend⟩ | ⟨_, hscan⟩
    · refine gw_run_boundary steps (r.1 + 1) row ?_
      rw [show r.1 + 1 + gw_run_len steps (r.1 + 1) = r.2.1 + 1 from by omega]
      exact hsome
    · refine group_scan_boundary steps (row'.sla_group.getD "")
        (r.1 + 1 + gw_run_len steps (r.1 + 1)) ?_ row ?_
      · intro y hy
        exact gw_run_boundary steps (r.1 + 1) y hy
      · rw [← hscan]
        exact hsome
  · intro i row hsome hngw hsla hgrp r hr
    exact mF i row (Nat.zero_le i) hsome hngw hsla hgrp r hr

/-- C6 witness: on `exC6`, the own-SLA row at index 0 yields the single merge
range `(0, 1, some "3d")` absorbing the trailing gateway-case row. -/
theorem C6_witness :
    ((0 : Nat), (1 : Nat), some "3d") ∈ sla_merges exC6 := by
  have h := (C6_sla_merge_ranges exC6).2.1 0
    { ref := "T1", is_gateway := false, sla := some "3d" } rfl rfl (by decide) (by decide)
  have hg : gw_run_len exC6 1 = 1 := by decide
  have h2 := h.1
  rw [hg] at h2
  exact h2

/-- Filtering with a weaker predicate keeps no more elements. -/
theorem filter_length_mono {α : Type} (l : List α) (p q : α → Bool)
    (h : ∀ x, q x = true → p x = true) :
    (l.filter q).length ≤ (l.filter p).length := by
  induction l with
  | nil => simp
  | cons a l ih =>
    rw [List.filter_cons, List.filter_cons]
    by_cases hq : q a
    · rw [hq, h a hq]
      simpa using ih
    · have hq2 : q a = false := by simpa using hq
      rw [hq2]
      simp only [Bool.false_eq_true, if_false]
      by_cases hp : p a
      · rw [hp]
        simp only [if_true, List.length_cons]
        omega
      · have hp2 : p a = false := by simpa using hp
        rw [hp2]
        simpa using ih

/-- Growing the visited set never increases the unvisited count. -/
theorem unvisited_anti (keys v w : List String) (h : v ⊆ w) :
    unvisited keys w ≤ unvisited keys v := by
  refine filter_length_mono keys _ _ ?_
  intro x hx
  simp at hx ⊢
  exact fun hv => hx (h hv)

/-- Visiting a yet-unvisited key strictly decreases the unvisited count. -/
theorem unvisited_cons_lt (keys v : List String) (e : String) (hk : e ∈ keys) (hv : e ∉ v) :
    unvisited keys (e :: v) < unvisited keys v := by
  induction keys with
  | nil => simp at hk
  | cons a keys ih =>
    unfold unvisited
    rw [List.filter_cons, List.filter_cons]
    by_cases hae : a = e
    · subst hae
      have h1 : (!(a :: v).contains a) = false := by simp
      have h2 : (!v.contains a) = true := by simpa using hv
      rw [h1, h2]
      simp only [Bool.false_eq_true, if_false, if_true, List.length_cons]
      have hle : (keys.filter (fun k => !(a :: v).contains k)).length ≤
          (keys.filter (fun k => !v.contains k)).length := by
        refine filter_length_mono keys _ _ ?_
        intro x hx
        simp at hx ⊢
        exact fun hxv => hx.2 hxv
      omega
    · have h3 : (!(e :: v).contains a) = (!v.contains a) := by
        simp [hae]
      rw [h3]
      have hk2 : e ∈ keys := by
        rcases List.mem_cons.mp hk with h4 | h4
        · exact absurd h4.symm hae
        · exact h4
      have hlt := ih hk2
      unfold unvisited at hlt
      by_cases hva : (!v.contains a) = true
      · rw [hva]
        simp only [if_true, List.length_cons]
        omega
      · have hva2 : (!v.contains a) = false := by simpa using hva
        rw [hva2]
        simp only [Bool.false_eq_true, if_false]
        omega

/-- The unvisited count is bounded by the number of keys. -/
theorem unvisited_le (keys v : List String) : unvisited keys v ≤ keys.length :=
  List.length_filter_le _ _

/-- A table lookup succeeds exactly when the key occurs in the key column. -/
theorem dget_isSome_iff {α : Type} (d : List (String × α)) (k : String) :
    (dget d k).isSome = true ↔ k ∈ keys_of d := by
  induction d with
  | nil => simp [dget, List.lookup, keys_of]
  | cons p rest ih =>
    rw [dget, List.lookup]
    by_cases hk : k = p.1
    · simp [keys_of, hk]
    · have hbe : (k == p.1) = false := by simp [hk]
      rw [hbe]
      simp only [keys_of, List.map_cons, List.mem_cons]
      rw [show (List.lookup k rest) = dget rest k from rfl]
      rw [ih]
      simp [keys_of, hk]

/-- Looking up a key absent from the key column yields nothing. -/
theorem dget_eq_none_of_not_mem {α : Type} (d : List (String × α)) (k : String)
    (h : k ∉ keys_of d) : dget d k = none := by
  cases hd : dget d k with
  | none => rfl
  | some x =>
    exact absurd ((dget_isSome_iff d k).mp (by rw [hd]; rfl)) h

/-- The forward-trace loop only grows the visited set. -/
theorem find_first_go_mono (m : BPMNModel)
    (recurse : String → List String → Option Nat × List String)
    (hrec : ∀ t vc, vc ⊆ (recurse t vc).2) :
    ∀ flows vc, vc ⊆ (find_first_go m recurse flows vc).2 := by
  intro flows
  induction flows with
  | nil =>
    intro vc
    simp [find_first_go]
  | cons fid rest ih =>
    intro vc
    cases hfl : dget m.flows fid with
    | none =>
      simp only [find_first_go, hfl]
      exact ih vc
    | some fl =>
      cases hnum : (dget m.tasks fl.target).bind (fun t => t.number) with
      | some n =>
        simp only [find_first_go, hfl, hnum]
        exact List.Subset.refl vc
      | none =>
        by_cases hg : ((dget m.gateways fl.target).isSome ||
            (dget m.events fl.target).isSome) = true
        · cases hr : recurse fl.target vc with
          | mk o visited2 =>
            have hsub : vc ⊆ visited2 := by
              have := hrec fl.target vc
              rw [hr] at this
              exact this
            cases o with
            | some r =>
              simp only [find_first_go, hfl, hnum, hg, if_true, hr]
              exact hsub
            | none =>
              simp only [find_first_go, hfl, hnum, hg, if_true, hr]
              exact hsub.trans (ih visited2)
        · have hg2 : ((dget m.gateways fl.target).isSome ||
              (dget m.events fl.target).isSome) = false := by simpa using hg
          simp only [find_first_go, hfl, hnum, hg2, Bool.false_eq_true, if_false]
          exact ih vc

/-- The forward trace only grows the visited set. -/
theorem find_first_mono (m : BPMNModel) :
    ∀ fuel e v, v ⊆ (find_first_task_from_element m fuel e v).2 := by
  intro fuel
  induction fuel with
  | zero =>
    intro e v
    simp [find_first_task_from_element]
  | succ f ih =>
    intro e v
    rw [find_first_task_from_element]
    by_cases hv : v.contains e = true
    · have hmem : e ∈ v := by simpa using hv
      simp [hmem]
    · have hv2 : v.contains e = false := by simpa using hv
      simp only [hv2, Bool.false_eq_true, if_false]
      refine List.Subset.trans (List.subset_cons_self e v) ?_
      exact find_first_go_mono m _ ih _ _

/-- The forward-trace loop is unchanged when its recursive call is replaced by one that agrees on all visited supersets. -/
theorem find_first_go_congr (m : BPMNModel)
    (r1 r2 : String → List String → Option Nat × List String) (v0 : List String)
    (hrec : ∀ t vc, v0 ⊆ vc → r1 t vc = r2 t vc)
    (hmono : ∀ t vc, vc ⊆ (r1 t vc).2) :
    ∀ flows vc, v0 ⊆ vc →
      find_first_go m r1 flows vc = find_first_go m r2 flows vc := by
  intro flows
  induction flows with
  | nil =>
    intro vc hvc
    simp [find_first_go]
  | cons fid rest ih =>
    intro vc hvc
    cases hfl : dget m.flows fid with
    | none =>
      simp only [find_first_go, hfl]
      exact ih vc hvc
    | some fl =>
      cases hnum : (dget m.tasks fl.target).bind (fun t => t.number) with
      | some n =>
        simp only [find_first_go, hfl, hnum]
      | none =>
        by_cases hg : ((dget m.gateways fl.target).isSome ||
            (dget m.events fl.target).isSome) = true
        · have heq := hrec fl.target vc hvc
          cases hr : r1 fl.target vc with
          | mk o visited2 =>
            have hr2 : r2 fl.target vc = (o, visited2) := by rw [← heq, hr]
            have hsub : vc ⊆ visited2 := by
              have := hmono fl.target vc
              rw [hr] at this
              exact this
            cases o with
            | some r =>
              simp only [find_first_go, hfl, hnum, hg, if_true, hr, hr2]
            | none =>
              simp only [find_first_go, hfl, hnum, hg, if_true, hr, hr2]
              exact ih visited2 (hvc.trans hsub)
        · have hg2 : ((dget m.gateways fl.target).isSome ||
              (dget m.events fl.target).isSome) = false := by simpa using hg
          simp only [find_first_go, hfl, hnum, hg2, Bool.false_eq_true, if_false]
          exact ih vc hvc

/-- One extra unit of fuel does not change the forward trace once the fuel exceeds the unvisited count. -/
theorem find_first_succ (m : BPMNModel) :
    ∀ fuel e v, unvisited (ff_keys m) v < fuel →
      find_first_task_from_element m fuel e v =
        find_first_task_from_element m (fuel + 1) e v := by
  intro fuel
  induction fuel with
  | zero =>
    intro e v h
    exact absurd h (by omega)
  | succ f ih =>
    intro e v h
    rw [find_first_task_from_element]
    rw [show f + 1 + 1 = (f + 1) + 1 from rfl, find_first_task_from_element]
    by_cases hv : v.contains e = true
    · have hmem : e ∈ v := by simpa using hv
      simp [hmem]
    · have hv2 : v.contains e = false := by simpa using hv
      have hmem : e ∉ v := by simpa using hv2
      simp only [hv2, Bool.false_eq_true, if_false]
      by_cases hk : e ∈ ff_keys m
      · have hlt : unvisited (ff_keys m) (e :: v) < unvisited (ff_keys m) v :=
          unvisited_cons_lt _ _ _ hk hmem
        refine find_first_go_congr m _ _ (e :: v) ?_ (fun t vc => find_first_mono m f t vc)
          _ _ (List.Subset.refl _)
        intro t vc hvc
        refine ih t vc ?_
        have := unvisited_anti (ff_keys m) (e :: v) vc hvc
        omega
      · have hgw : dget m.gateways e = none := by
          refine dget_eq_none_of_not_mem _ _ ?_
          intro hmm
          exact hk (List.mem_append.mpr (Or.inl hmm))
        have hev : dget m.events e = none := by
          refine dget_eq_none_of_not_mem _ _ ?_
          intro hmm
          exact hk (List.mem_append.mpr (Or.inr hmm))
        simp only [hgw, hev]
        rfl

/-- The forward trace is fuel-independent above the unvisited count. -/
theorem find_first_stable (m : BPMNModel) (fuel₁ fuel₂ : Nat) (e : String) (v : List String)
    (h1 : unvisited (ff_keys m) v < fuel₁) (h2 : unvisited (ff_keys m) v < fuel₂) :
    find_first_task_from_element m fuel₁ e v = find_first_task_from_element m fuel₂ e v := by
  have key : ∀ d f, unvisited (ff_keys m) v < f →
      find_first_task_from_element m f e v = find_first_task_from_element m (f + d) e v := by
    intro d
    induction d with
    | zero => intro f hf; rfl
    | succ d ihd =>
      intro f hf
      rw [ihd f hf, show f + (d + 1) = (f + d) + 1 from rfl]
      exact find_first_succ m (f + d) e v (by omega)
  rcases Nat.le_total fuel₁ fuel₂ with hle | hle
  · have h3 := key (fuel₂ - fuel₁) fuel₁ h1
    rw [show fuel₁ + (fuel₂ - fuel₁) = fuel₂ from by omega] at h3
    exact h3
  · have h3 := key (fuel₁ - fuel₂) fuel₂ h2
    rw [show fuel₂ + (fuel₁ - fuel₂) = fuel₁ from by omega] at h3
    exact h3.symm

/-- The gateway back-trace loop only grows the visited set. -/
theorem trace_gateway_go_mono (m : BPMNModel)
    (recurse : String → List String → Option Nat × List String)
    (hrec : ∀ t vc, vc ⊆ (recurse t vc).2) :
    ∀ flows vc, vc ⊆ (trace_gateway_go m recurse flows vc).2 := by
  intro flows
  induction flows with
  | nil =>
    intro vc
    simp [trace_gateway_go]
  | cons fid rest ih =>
    intro vc
    cases hfl : dget m.flows fid with
    | none =>
      simp only [trace_gateway_go, hfl]
      exact ih vc
    | some fl =>
      cases hnum : (dget m.tasks fl.source).bind (fun t => t.number) with
      | some n =>
        simp only [trace_gateway_go, hfl, hnum]
        exact List.Subset.refl vc
      | none =>
        by_cases hg : (dget m.gateways fl.source).isSome = true
        · cases hr : recurse fl.source vc with
          | mk o visited2 =>
            have hsub : vc ⊆ visited2 := by
              have := hrec fl.source vc
              rw [hr] at this
              exact this
            cases o with
            | some r =>
              simp only [trace_gateway_go, hfl, hnum, hg, if_true, hr]
              exact hsub
            | none =>
              simp only [trace_gateway_go, hfl, hnum, hg, if_true, hr]
              exact hsub.trans (ih visited2)
        · have hg2 : (dget m.gateways fl.source).isSome = false := by simpa using hg
          simp only [trace_gateway_go, hfl, hnum, hg2, Bool.false_eq_true, if_false]
          exact ih vc

/-- The gateway back-trace only grows the visited set. -/
theorem trace_gateway_mono (m : BPMNModel) :
    ∀ fuel e v, v ⊆ (trace_gateway_to_task m fuel e v).2 := by
  intro fuel
  induction fuel with
  | zero =>
    intro e v
    simp [trace_gateway_to_task]
  | succ f ih =>
    intro e v
    rw [trace_gateway_to_task]
    by_cases hv : v.contains e = true
    · have hmem : e ∈ v := by simpa using hv
      simp [hmem]
    · have hv2 : v.contains e = false := by simpa using hv
      simp only [hv2, Bool.false_eq_true, if_false]
      cases hgw : dget m.gateways e with
      | none =>
        exact List.subset_cons_self e v
      | some gw =>
        refine List.Subset.trans (List.subset_cons_self e v) ?_
        exact trace_gateway_go_mono m _ ih _ _

/-- The gateway back-trace loop is unchanged when its recursive call is replaced by one that agrees on all visited supersets. -/
theorem trace_gateway_go_congr (m : BPMNModel)
    (r1 r2 : String → List String → Option Nat × List String) (v0 : List String)
    (hrec : ∀ t vc, v0 ⊆ vc → r1 t vc = r2 t vc)
    (hmono : ∀ t vc, vc ⊆ (r1 t vc).2) :
    ∀ flows vc, v0 ⊆ vc →
      trace_gateway_go m r1 flows vc = trace_gateway_go m r2 flows vc := by
  intro flows
  induction flows with
  | nil =>
    intro vc hvc
    simp [trace_gateway_go]
  | cons fid rest ih =>
    intro vc hvc
    cases hfl : dget m.flows fid with
    | none =>
      simp only [trace_gateway_go, hfl]
      exact ih vc hvc
    | some fl =>
      cases hnum : (dget m.tasks fl.source).bind (fun t => t.number) with
      | some n =>
        simp only [trace_gateway_go, hfl, hnum]
      | none =>
        by_cases hg : (dget m.gateways fl.source).isSome = true
        · have heq := hrec fl.source vc hvc
          cases hr : r1 fl.source vc with
          | mk o visited2 =>
            have hr2 : r2 fl.source vc = (o, visited2) := by rw [← heq, hr]
            have hsub : vc ⊆ visited2 := by
              have := hmono fl.source vc
              rw [hr] at this
              exact this
            cases o with
            | some r =>
              simp only [trace_gateway_go, hfl, hnum, hg, if_true, hr, hr2]
            | none =>
              simp only [trace_gateway_go, hfl, hnum, hg, if_true, hr, hr2]
              exact ih visited2 (hvc.trans hsub)
        · have hg2 : (dget m.gateways fl.source).isSome = false := by simpa using hg
          simp only [trace_gateway_go, hfl, hnum, hg2, Bool.false_eq_true, if_false]
          exact ih vc hvc

/-- One extra unit of fuel does not change the gateway back-trace once the fuel exceeds the unvisited count. -/
theorem trace_gateway_succ (m : BPMNModel) :
    ∀ fuel e v, unvisited (tg_keys m) v < fuel →
      trace_gateway_to_task m fuel e v = trace_gateway_to_task m (fuel + 1) e v := by
  intro fuel
  induction fuel with
  | zero =>
    intro e v h
    exact absurd h (by omega)
  | succ f ih =>
    intro e v h
    rw [trace_gateway_to_task]
    rw [show f + 1 + 1 = (f + 1) + 1 from rfl, trace_gateway_to_task]
    by_cases hv : v.contains e = true
    · have hmem : e ∈ v := by simpa using hv
      simp [hmem]
    · have hv2 : v.contains e = false := by simpa using hv
      have hmem : e ∉ v := by simpa using hv2
      simp only [hv2, Bool.false_eq_true, if_false]
      cases hgw : dget m.gateways e with
      | none => rfl
      | some gw =>
        have hk : e ∈ tg_keys m := by
          refine (dget_isSome_iff m.gateways e).mp ?_
          rw [hgw]
          rfl
        have hlt : unvisited (tg_keys m) (e :: v) < unvisited (tg_keys m) v :=
          unvisited_cons_lt _ _ _ hk hmem
        refine trace_gateway_go_congr m _ _ (e :: v) ?_ (fun t vc => trace_gateway_mono m f t vc)
          _ _ (List.Subset.refl _)
        intro t vc hvc
        refine ih t vc ?_
        have := unvisited_anti (tg_keys m) (e :: v) vc hvc
        omega

/-- The gateway back-trace is fuel-independent above the unvisited count. -/
theorem trace_gateway_stable (m : BPMNModel) (fuel₁ fuel₂ : Nat) (e : String) (v : List String)
    (h1 : unvisited (tg_keys m) v < fuel₁) (h2 : unvisited (tg_keys m) v < fuel₂) :
    trace_gateway_to_task m fuel₁ e v = trace_gateway_to_task m fuel₂ e v := by
  have key : ∀ d f, unvisited (tg_keys m) v < f →
      trace_gateway_to_task m f e v = trace_gateway_to_task m (f + d) e v := by
    intro d
    induction d with
    | zero => intro f hf; rfl
    | succ d ihd =>
      intro f hf
      rw [ihd f hf, show f + (d + 1) = (f + d) + 1 from rfl]
      exact trace_gateway_succ m (f + d) e v (by omega)
  rcases Nat.le_total fuel₁ fuel₂ with hle | hle
  · have h3 := key (fuel₂ - fuel₁) fuel₁ h1
    rw [show fuel₁ + (fuel₂ - fuel₁) = fuel₂ from by omega] at h3
    exact h3
  · have h3 := key (fuel₁ - fuel₂) fuel₂ h2
    rw [show fuel₂ + (fuel₁ - fuel₂) = fuel₁ from by omega] at h3
    exact h3.symm

/-- The single-step back-walk is unchanged when its recursive call is replaced by one that agrees at the current visited set. -/
theorem trace_back_step_congr (m : BPMNModel)
    (r1 r2 : String → List String → Option (String × GType))
    (flows visited : List String)
    (h : ∀ s, r1 s visited = r2 s visited) :
    trace_back_step m r1 flows visited = trace_back_step m r2 flows visited := by
  unfold trace_back_step
  cases flows with
  | nil => rfl
  | cons a as =>
    cases as with
    | nil =>
      dsimp only
      cases hfl : dget m.flows a with
      | none =>
        simp only [hfl]
      | some fl =>
        simp only [hfl]
        exact h fl.source
    | cons b bs => rfl

/-- One extra unit of fuel does not change the split-gateway back-walk once the fuel exceeds the unvisited count. -/
theorem trace_back_succ (m : BPMNModel) :
    ∀ fuel e v, unvisited (tb_keys m) v < fuel →
      trace_back_to_split_gateway m fuel e v =
        trace_back_to_split_gateway m (fuel + 1) e v := by
  intro fuel
  induction fuel with
  | zero =>
    intro e v h
    exact absurd h (by omega)
  | succ f ih =>
    intro e v h
    rw [trace_back_to_split_gateway]
    rw [show f + 1 + 1 = (f + 1) + 1 from rfl, trace_back_to_split_gateway]
    by_cases hv : v.contains e = true
    · have hmem : e ∈ v := by simpa using hv
      simp [hmem]
    · have hv2 : v.contains e = false := by simpa using hv
      have hmem : e ∉ v := by simpa using hv2
      simp only [hv2, Bool.false_eq_true, if_false]
      cases hgw : dget m.gateways e with
      | some gw =>
        dsimp only
        have hk : e ∈ tb_keys m := by
          refine List.mem_append.mpr (Or.inl ?_)
          refine (dget_isSome_iff m.gateways e).mp ?_
          rw [hgw]
          rfl
        have hlt : unvisited (tb_keys m) (e :: v) < unvisited (tb_keys m) v :=
          unvisited_cons_lt _ _ _ hk hmem
        by_cases hsp : gw.incoming.length = 1 ∧ gw.outgoing.length > 1
        · rw [if_pos hsp, if_pos hsp]
        · rw [if_neg hsp, if_neg hsp]
          refine trace_back_step_congr m _ _ gw.incoming (e :: v) ?_
          intro s
          exact ih s (e :: v) (by omega)
      | none =>
        dsimp only
        cases hT : dget m.tasks e with
        | some t =>
          dsimp only
          have hk : e ∈ tb_keys m := by
            refine List.mem_append.mpr (Or.inr ?_)
            refine (dget_isSome_iff m.tasks e).mp ?_
            rw [hT]
            rfl
          have hlt : unvisited (tb_keys m) (e :: v) < unvisited (tb_keys m) v :=
            unvisited_cons_lt _ _ _ hk hmem
          refine trace_back_step_congr m _ _ t.incoming (e :: v) ?_
          intro s
          exact ih s (e :: v) (by omega)
        | none => rfl

/-- The split-gateway back-walk is fuel-independent above the unvisited count. -/
theorem trace_back_stable (m : BPMNModel) (fuel₁ fuel₂ : Nat) (e : String) (v : List String)
    (h1 : unvisited (tb_keys m) v < fuel₁) (h2 : unvisited (tb_keys m) v < fuel₂) :
    trace_back_to_split_gateway m fuel₁ e v = trace_back_to_split_gateway m fuel₂ e v := by
  have key : ∀ d f, unvisited (tb_keys m) v < f →
      trace_back_to_split_gateway m f e v = trace_back_to_split_gateway m (f + d) e v := by
    intro d
    induction d with
    | zero => intro f hf; rfl
    | succ d ihd =>
      intro f hf
      rw [ihd f hf, show f + (d + 1) = (f + d) + 1 from rfl]
      exact trace_back_succ m (f + d) e v (by omega)
  rcases Nat.le_total fuel₁ fuel₂ with hle | hle
  · have h3 := key (fuel₂ - fuel₁) fuel₁ h1
    rw [show fuel₁ + (fuel₂ - fuel₁) = fuel₂ from by omega] at h3
    exact h3
  · have h3 := key (fuel₁ - fuel₂) fuel₂ h2
    rw [show fuel₂ + (fuel₁ - fuel₂) = fuel₁ from by omega] at h3
    exact h3.symm

/-- The source-trace loop only grows the visited set. -/
theorem trace_source_go_mono (m : BPMNModel)
    (recurse : String → List String × List Nat × List Nat → List String × List Nat × List Nat)
    (hrec : ∀ s st, st.1 ⊆ (recurse s st).1) :
    ∀ flows st, st.1 ⊆ (trace_source_go m recurse flows st).1 := by
  intro flows
  induction flows with
  | nil =>
    intro st
    simp [trace_source_go]
  | cons fid rest ih =>
    intro st
    cases hfl : dget m.flows fid with
    | none =>
      simp only [trace_source_go, hfl]
      exact ih st
    | some fl =>
      simp only [trace_source_go, hfl]
      exact (hrec fl.source st).trans (ih (recurse fl.source st))

/-- The source trace only grows the visited set. -/
theorem trace_source_mono (m : BPMNModel) (sens : List (String × Nat)) (cur : Nat) :
    ∀ fuel e st, st.1 ⊆ (trace_source m sens cur fuel e st).1 := by
  intro fuel
  induction fuel with
  | zero =>
    intro e st
    simp [trace_source]
  | succ f ih =>
    intro e st
    obtain ⟨v, steps, trigs⟩ := st
    rw [trace_source]
    by_cases hv : v.contains e = true
    · have hmem0 : e ∈ v := by simpa using hv
      simp [hmem0]
    · have hv2 : v.contains e = false := by simpa using hv
      simp only [hv2, Bool.false_eq_true, if_false]
      cases hT : dget m.tasks e with
      | some t =>
        dsimp only
        cases t.number with
        | some n =>
          dsimp only
          by_cases hn : n < cur
          · rw [if_pos hn]
            exact List.subset_cons_self e v
          · rw [if_neg hn]
            exact List.subset_cons_self e v
        | none => exact List.subset_cons_self e v
      | none =>
        dsimp only
        cases hE : dget m.events e with
        | some ev =>
          dsimp only
          by_cases hs : ev.type = EType.start
          · rw [if_pos hs]
            cases List.lookup e sens with
            | some n => exact List.subset_cons_self e v
            | none => exact List.subset_cons_self e v
          · rw [if_neg hs]
            refine List.Subset.trans (List.subset_cons_self e v) ?_
            exact trace_source_go_mono m _ ih ev.incoming (e :: v, steps, trigs)
        | none =>
          dsimp only
          cases hG : dget m.gateways e with
          | some g =>
            dsimp only
            refine List.Subset.trans (List.subset_cons_self e v) ?_
            exact trace_source_go_mono m _ ih g.incoming (e :: v, steps, trigs)
          | none =>
            dsimp only
            cases hS : dget m.subprocesses e with
            | some sp =>
              dsimp only
              refine List.Subset.trans (List.subset_cons_self e v) ?_
              exact trace_source_go_mono m _ ih sp.incoming (e :: v, steps, trigs)
            | none => exact List.subset_cons_self e v

/-- The source-trace loop is unchanged when its recursive call is replaced by one that agrees on all visited supersets. -/
theorem trace_source_go_congr (m : BPMNModel)
    (r1 r2 : String → List String × List Nat × List Nat → List String × List Nat × List Nat)
    (v0 : List String)
    (hrec : ∀ s st, v0 ⊆ st.1 → r1 s st = r2 s st)
    (hmono : ∀ s st, st.1 ⊆ (r1 s st).1) :
    ∀ flows st, v0 ⊆ st.1 →
      trace_source_go m r1 flows st = trace_source_go m r2 flows st := by
  intro flows
  induction flows with
  | nil =>
    intro st hst
    simp [trace_source_go]
  | cons fid rest ih =>
    intro st hst
    cases hfl : dget m.flows fid with
    | none =>
      simp only [trace_source_go, hfl]
      exact ih st hst
    | some fl =>
      simp only [trace_source_go, hfl]
      have heq := hrec fl.source st hst
      rw [← heq]
      exact ih (r1 fl.source st) (hst.trans (hmono fl.source st))

/-- One extra unit of fuel does not change the source trace once the fuel exceeds the unvisited count. -/
theorem trace_source_succ (m : BPMNModel) (sens : List (String × Nat)) (cur : Nat) :
    ∀ fuel e st, unvisited (ts_keys m) st.1 < fuel →
      trace_source m sens cur fuel e st = trace_source m sens cur (fuel + 1) e st := by
  intro fuel
  induction fuel with
  | zero =>
    intro e st h
    exact absurd h (by omega)
  | succ f ih =>
    intro e st h
    obtain ⟨v, steps, trigs⟩ := st
    rw [trace_source]
    rw [show f + 1 + 1 = (f + 1) + 1 from rfl, trace_source]
    by_cases hv : v.contains e = true
    · have hmem0 : e ∈ v := by simpa using hv
      simp [hmem0]
    · have hv2 : v.contains e = false := by simpa using hv
      have hmem : e ∉ v := by simpa using hv2
      simp only [hv2, Bool.false_eq_true, if_false]
      cases hT : dget m.tasks e with
      | some t => rfl
      | none =>
        dsimp only
        cases hE : dget m.events e with
        | some ev =>
          dsimp only
          by_cases hs : ev.type = EType.start
          · simp only [if_pos hs]
          · simp only [if_neg hs]
            have hk : e ∈ ts_keys m := by
              refine List.mem_append.mpr (Or.inl (List.mem_append.mpr (Or.inl ?_)))
              refine (dget_isSome_iff m.events e).mp ?_
              rw [hE]
              rfl
            have hlt : unvisited (ts_keys m) (e :: v) < unvisited (ts_keys m) v :=
              unvisited_cons_lt _ _ _ hk hmem
            refine trace_source_go_congr m _ _ (e :: v) ?_
              (fun s st => trace_source_mono m sens cur f s st) ev.incoming
              (e :: v, steps, trigs) (List.Subset.refl _)
            intro s st hst
            refine ih s st ?_
            have := unvisited_anti (ts_keys m) (e :: v) st.1 hst
            simp only at h
            omega
        | none =>
          dsimp only
          cases hG : dget m.gateways e with
          | some g =>
            dsimp only
            have hk : e ∈ ts_keys m := by
              refine List.mem_append.mpr (Or.inl (List.mem_append.mpr (Or.inr ?_)))
              refine (dget_isSome_iff m.gateways e).mp ?_
              rw [hG]
              rfl
            have hlt : unvisited (ts_keys m) (e :: v) < unvisited (ts_keys m) v :=
              unvisited_cons_lt _ _ _ hk hmem
            refine trace_source_go_congr m _ _ (e :: v) ?_
              (fun s st => trace_source_mono m sens cur f s st) g.incoming
              (e :: v, steps, trigs) (List.Subset.refl _)
            intro s st hst
            refine ih s st ?_
            have := unvisited_anti (ts_keys m) (e :: v) st.1 hst
            simp only at h
            omega
          | none =>
            dsimp only
            cases hS : dget m.subprocesses e with
            | some sp =>
              dsimp only
              have hk : e ∈ ts_keys m := by
                refine List.mem_append.mpr (Or.inr ?_)
                refine (dget_isSome_iff m.subprocesses e).mp ?_
                rw [hS]
                rfl
              have hlt : unvisited (ts_keys m) (e :: v) < unvisited (ts_keys m) v :=
                unvisited_cons_lt _ _ _ hk hmem
              refine trace_source_go_congr m _ _ (e :: v) ?_
                (fun s st => trace_source_mono m sens cur f s st) sp.incoming
                (e :: v, steps, trigs) (List.Subset.refl _)
              intro s st hst
              refine ih s st ?_
              have := unvisited_anti (ts_keys m) (e :: v) st.1 hst
              simp only at h
              omega
            | none => rfl

/-- The source trace is fuel-independent above the unvisited count. -/
theorem trace_source_stable (m : BPMNModel) (sens : List (String × Nat)) (cur : Nat)
    (fuel₁ fuel₂ : Nat) (e : String) (st : List String × List Nat × List Nat)
    (h1 : unvisited (ts_keys m) st.1 < fuel₁) (h2 : unvisited (ts_keys m) st.1 < fuel₂) :
    trace_source m sens cur fuel₁ e st = trace_source m sens cur fuel₂ e st := by
  have key : ∀ d f, unvisited (ts_keys m) st.1 < f →
      trace_source m sens cur f e st = trace_source m sens cur (f + d) e st := by
    intro d
    induction d with
    | zero => intro f hf; rfl
    | succ d ihd =>
      intro f hf
      rw [ihd f hf, show f + (d + 1) = (f + d) + 1 from rfl]
      exact trace_source_succ m sens cur (f + d) e st (by omega)
  rcases Nat.le_total fuel₁ fuel₂ with hle | hle
  · have h3 := key (fuel₂ - fuel₁) fuel₁ h1
    rw [show fuel₁ + (fuel₂ - fuel₁) = fuel₂ from by omega] at h3
    exact h3
  · have h3 := key (fuel₁ - fuel₂) fuel₂ h2
    rw [show fuel₂ + (fuel₁ - fuel₂) = fuel₁ from by omega] at h3
    exact h3.symm

/-- C9: every recursive traversal of the parser (forward tracing to the first
task, backward tracing through gateways to a task, backward tracing to a split
gateway, and backward source tracing for step/trigger detection) is stabilised
by its visited set: on any BPMN graph, cyclic or not, any two fuel values of at
least `sufficient_fuel` produce identical results from every start element and
visited state, so each walk terminates with a fuel-independent value. -/
theorem C9_traversals_fuel_independent (m : BPMNModel) (fuel₁ fuel₂ : Nat)
    (h1 : sufficient_fuel m ≤ fuel₁) (h2 : sufficient_fuel m ≤ fuel₂) :
    (∀ e v, find_first_task_from_element m fuel₁ e v =
      find_first_task_from_element m fuel₂ e v) ∧
    (∀ g v, trace_gateway_to_task m fuel₁ g v = trace_gateway_to_task m fuel₂ g v) ∧
    (∀ e v, trace_back_to_split_gateway m fuel₁ e v =
      trace_back_to_split_gateway m fuel₂ e v) ∧
    (∀ sens cur e st, trace_source m sens cur fuel₁ e st =
      trace_source m sens cur fuel₂ e st) := by
  have hsf : m.tasks.length + m.gateways.length + m.events.length +
      m.subprocesses.length + 1 = sufficient_fuel m := rfl
  refine ⟨?_, ?_, ?_, ?_⟩
  · intro e v
    have hb : unvisited (ff_keys m) v < sufficient_fuel m := by
      have hle := unvisited_le (ff_keys m) v
      have hlen : (ff_keys m).length = m.gateways.length + m.events.length := by
        simp [ff_keys, keys_of]
      omega
    exact find_first_stable m fuel₁ fuel₂ e v (by omega) (by omega)
  · intro g v
    have hb : unvisited (tg_keys m) v < sufficient_fuel m := by
      have hle := unvisited_le (tg_keys m) v
      have hlen : (tg_keys m).length = m.gateways.length := by
        simp [tg_keys, keys_of]
      omega
    exact trace_gateway_stable m fuel₁ fuel₂ g v (by omega) (by omega)
  · intro e v
    have hb : unvisited (tb_keys m) v < sufficient_fuel m := by
      have hle := unvisited_le (tb_keys m) v
      have hlen : (tb_keys m).length = m.gateways.length + m.tasks.length := by
        simp [tb_keys, keys_of]
      omega
    exact trace_back_stable m fuel₁ fuel₂ e v (by omega) (by omega)
  · intro sens cur e st
    have hb : unvisited (ts_keys m) st.1 < sufficient_fuel m := by
      have hle := unvisited_le (ts_keys m) st.1
      have hlen : (ts_keys m).length = m.events.length + m.gateways.length +
          m.subprocesses.length := by
        simp [ts_keys, keys_of]
        omega
      omega
    exact trace_source_stable m sens cur fuel₁ fuel₂ e st (by omega) (by omega)

/-- C9 witness: on the cyclic model `mW` (its Rejected branch loops back to
task T1), the forward trace and the split-gateway back-walk agree at fuels 6
and 11, both at least `sufficient_fuel mW = 6`. -/
theorem C9_witness :
    sufficient_fuel mW ≤ 6 ∧ sufficient_fuel mW ≤ 11 ∧
    find_first_task_from_element mW 6 "S" [] = find_first_task_from_element mW 11 "S" [] ∧
    trace_back_to_split_gateway mW 6 "T1" [] = trace_back_to_split_gateway mW 11 "T1" [] := by
  refine ⟨by decide, by decide, ?_, ?_⟩
  · exact (C9_traversals_fuel_independent mW 6 11 (by decide) (by decide)).1 "S" []
  · exact (C9_traversals_fuel_independent mW 6 11 (by decide) (by decide)).2.2.1 "T1" []

/-- C10 witness: the first case row of `mW`'s XOR split is a member of the
generated rows and satisfies the invariant with the concrete RACI `raciW`. -/
theorem C10_witness :
    rowW ∈ generate_gateway_rows mW 1 "G" (some raciW) ∧
      rowW.is_gateway = true ∧ rowW.sla = none ∧ rowW.sla_group = none ∧
      rowW.raci = raciW := by
  have hm : rowW ∈ generate_gateway_rows mW 1 "G" (some raciW) := by decide
  have h := C10_gateway_case_row_invariant mW 1 "G" (some raciW) rowW hm
  exact ⟨hm, h.1, h.2.1, h.2.2.1, h.2.2.2⟩

end SOP
